import Mathlib

/-!
Verification of the docgen-mcp document-mutation compiler.

This file gives a shallow embedding in Lean 4 of the Google Docs builder
(`src/utils/gdocs-builder.ts`), the section-to-builder bridge
(`src/utils/section-builder.ts`) and the multi-phase batching logic of the
`create_google_doc` handler (`src/generators/risk-register.ts`), and proves
the spec's testable properties about them.

Conventions of the embedding:
- the builder's `index` field is an `Int` (JavaScript number used as an
  integer in the source);
- JavaScript `NaN` values arising from `parseInt` are modelled as `none`
  in `Option ℚ` colour components;
- the request objects pushed onto `this.requests` are modelled by the
  inductive type `GReq`, keeping the fields the source writes;
- string lengths are Lean `String.length` (the source texts are ASCII, where
  this agrees with JavaScript's UTF-16 `.length`).
-/

/-! ## Colour constants (`src/styles.ts`, the entries used by the builder) -/

def COLORS.primary_dark : String := "1F4E79"
def COLORS.border : String := "CCCCCC"
def COLORS.header_cell : String := "D9D9D9"
def COLORS.critical_bg : String := "FDECEA"
def COLORS.critical_border : String := "EA4335"
def COLORS.critical_text : String := "B71C1C"
def COLORS.high_bg : String := "FEF7E0"
def COLORS.high_border : String := "F9AB00"
def COLORS.high_text : String := "E65100"
def COLORS.low_bg : String := "E8F4EA"
def COLORS.low_border : String := "34A853"
def COLORS.low_text : String := "1B5E20"
def COLORS.info_bg : String := "D6E3F0"
def COLORS.info_border : String := "1F4E79"
def COLORS.info_text : String := "1F4E79"

/-! ## `hexToRgb` and the JavaScript primitives it relies on -/

/-- Hexadecimal digit test, as used by JavaScript `parseInt(_, 16)`:
`0`-`9`, `a`-`f`, `A`-`F` (character codes 48-57, 97-102, 65-70). -/
def isHexDigitB (c : Char) : Bool :=
  decide ((48 ≤ c.toNat ∧ c.toNat ≤ 57) ∨ (97 ≤ c.toNat ∧ c.toNat ≤ 102) ∨
    (65 ≤ c.toNat ∧ c.toNat ≤ 70))

/-- Numeric value of a hexadecimal digit (0 for a non-digit). -/
def hexVal (c : Char) : Nat :=
  if 48 ≤ c.toNat ∧ c.toNat ≤ 57 then c.toNat - 48
  else if 97 ≤ c.toNat ∧ c.toNat ≤ 102 then c.toNat - 87
  else if 65 ≤ c.toNat ∧ c.toNat ≤ 70 then c.toNat - 55
  else 0

/-- JavaScript `parseInt` leading-whitespace characters (the common ones). -/
def isJsWs (c : Char) : Bool :=
  c = ' ' ∨ c = '\t' ∨ c = '\n' ∨ c = '\x0d'

/-- `parseInt(_, 16)` strips a leading `0x`/`0X` before reading digits. -/
def stripHexPrefix (cs : List Char) : List Char :=
  match cs with
  | a :: b :: rest => if a = '0' ∧ (b = 'x' ∨ b = 'X') then rest else a :: b :: rest
  | _ => cs

/-- Magnitude part of `parseInt(_, 16)`: longest hex-digit prefix after an
optional `0x`; `none` models the `NaN` result when no digit is present. -/
def parseHexMag (cs : List Char) : Option Nat :=
  let ds := (stripHexPrefix cs).takeWhile isHexDigitB
  if ds.isEmpty then none
  else some (ds.foldl (fun a c => a * 16 + hexVal c) 0)

/-- JavaScript `parseInt(s, 16)`: skip leading whitespace, optional sign,
optional `0x`, then the longest hex-digit prefix; `none` models `NaN`. -/
def jsParseIntHex (cs : List Char) : Option Int :=
  match cs.dropWhile isJsWs with
  | [] => none
  | c :: rest =>
    if c = '-' then (parseHexMag rest).map (fun n => -(n : Int))
    else if c = '+' then (parseHexMag rest).map (fun n => (n : Int))
    else (parseHexMag (c :: rest)).map (fun n => (n : Int))

/-- JavaScript `s.replace('#', '')` with a string pattern: removes the first
occurrence of `#` only. -/
def removeFirstHash : List Char → List Char
  | [] => []
  | c :: rest => if c = '#' then rest else c :: removeFirstHash rest

/-- JavaScript `s.substring(a, b)` (for `a ≤ b`): characters `[a, b)`. -/
def jsSubstring (cs : List Char) (a b : Nat) : List Char :=
  (cs.drop a).take (b - a)

/-- An RGB colour as produced by `hexToRgb`; each channel is `value / 255`,
with `none` standing for JavaScript `NaN`. -/
structure Rgb where
  red : Option ℚ
  green : Option ℚ
  blue : Option ℚ
deriving Repr, DecidableEq

/-- `hexToRgb` (`gdocs-builder.ts` lines 42-49): strip the first `#`, then
`parseInt` each of the three two-character substrings and divide by 255. -/
def hexToRgb (hex : String) : Rgb :=
  let clean := removeFirstHash hex.data
  { red := (jsParseIntHex (jsSubstring clean 0 2)).map (fun n => (n : ℚ) / 255)
    green := (jsParseIntHex (jsSubstring clean 2 4)).map (fun n => (n : ℚ) / 255)
    blue := (jsParseIntHex (jsSubstring clean 4 6)).map (fun n => (n : ℚ) / 255) }

/-! ## Style payloads -/

/-- One side's border spec inside `tableCellStyle` / paragraph borders. -/
structure BorderSpec where
  color : Rgb
  width : ℚ
  dashStyle : String
  padding : Option ℚ := none
deriving Repr, DecidableEq

/-- The `textStyle` object of an `updateTextStyle` request. `none` means the
source did not write the field; `some none` models an explicit `null`. -/
structure TextStyle where
  bold : Option Bool := none
  italic : Option Bool := none
  underline : Option Bool := none
  strikethrough : Option Bool := none
  foregroundColor : Option Rgb := none
  backgroundColor : Option (Option Rgb) := none
  weightedFontFamily : Option String := none
  fontSize : Option ℚ := none
  link : Option (Option String) := none
  baselineOffset : Option String := none
deriving Repr, DecidableEq

/-- The `paragraphStyle` object of an `updateParagraphStyle` request. -/
structure ParaStyle where
  namedStyleType : Option String := none
  alignment : Option String := none
  spaceAbove : Option ℚ := none
  spaceBelow : Option ℚ := none
  lineSpacing : Option ℚ := none
  borderBottom : Option BorderSpec := none
deriving Repr, DecidableEq

/-- The `tableCellStyle` object of an `updateTableCellStyle` request. -/
structure CellStyle where
  backgroundColor : Option Rgb := none
  borderLeft : Option BorderSpec := none
  borderRight : Option BorderSpec := none
  borderTop : Option BorderSpec := none
  borderBottom : Option BorderSpec := none
  paddingTop : Option ℚ := none
  paddingBottom : Option ℚ := none
  paddingLeft : Option ℚ := none
  paddingRight : Option ℚ := none
deriving Repr, DecidableEq

/-! ## Requests (`GDocsRequest` objects the builder and handler construct) -/

inductive GReq where
  | insertTextReq (index : Int) (text : String)
  | updateParagraphStyleReq (startIndex endIndex : Int) (style : ParaStyle)
      (fields : String)
  | updateTextStyleReq (startIndex endIndex : Int) (style : TextStyle)
      (fields : String)
  | createParagraphBullets (startIndex endIndex : Int) (bulletPreset : String)
  | insertTableReq (rows columns : Nat) (index : Int)
  | updateTableCellStyleReq (tableStartLocation : Int) (rowIndex columnIndex : Nat)
      (rowSpan columnSpan : Nat) (style : CellStyle) (fields : String)
  | updateTableColumnPropertiesReq (tableStartLocation : Int) (columnIndices : List Nat)
      (widthType : String) (width : ℚ) (fields : String)
  | insertPageBreakReq (index : Int)
  | insertInlineImageReq (index : Int) (uri : String) (width height : Option ℚ)
  | updateDocumentStyleReq
  | createHeaderReq
  | createFooterReq
  | insertSegmentTextReq (segmentId : String) (index : Int) (text : String)
  | updateSegmentParagraphStyleReq (segmentId : String) (startIndex endIndex : Int)
      (alignment : String)
deriving Repr, DecidableEq

/-- The `r.updateTableCellStyle` discriminator used by the handler's
structural/style batch split. -/
def GReq.isCellStyle : GReq → Bool
  | .updateTableCellStyleReq _ _ _ _ _ _ _ => true
  | _ => false

/-- The `fields` mask of a request (empty for requests without one);
used only to state theorems about emission order. -/
def GReq.fieldsOf : GReq → String
  | .updateParagraphStyleReq _ _ _ f => f
  | .updateTextStyleReq _ _ _ f => f
  | .updateTableCellStyleReq _ _ _ _ _ _ f => f
  | .updateTableColumnPropertiesReq _ _ _ _ f => f
  | _ => ""

/-! ## Builder state and private helpers -/

/-- Alignment values accepted by the option records (`'left' | 'center' | 'right'`). -/
inductive HAlign where
  | left | center | right
deriving Repr, DecidableEq

/-- `TextStyleOptions` (`gdocs-builder.ts` lines 22-32). -/
structure TextStyleOptions where
  bold : Option Bool := none
  italic : Option Bool := none
  underline : Option Bool := none
  strikethrough : Option Bool := none
  color : Option String := none
  backgroundColor : Option String := none
  fontSize : Option ℚ := none
  fontFamily : Option String := none
  link : Option String := none
deriving Repr, DecidableEq

/-- `RunContent` (`gdocs-builder.ts` lines 34-37). -/
structure RunContent where
  text : String
  style : Option TextStyleOptions := none
deriving Repr, DecidableEq

/-- `HeaderFooterConfig` (`gdocs-builder.ts` lines 58-62). -/
structure HeaderFooterConfig where
  text : Option String := none
  includePageNumber : Option Bool := none
  alignment : Option HAlign := none
deriving Repr, DecidableEq

/-- `PhaseRequests` (`gdocs-builder.ts` lines 65-72). -/
structure PhaseRequests where
  mainRequests : List GReq
  phase1Requests : List GReq
  hasHeader : Bool
  hasFooter : Bool
  headerConfig : Option HeaderFooterConfig
  footerConfig : Option HeaderFooterConfig
deriving Repr, DecidableEq

/-- The `GDocsBuilder` instance state: the accumulated `requests` array, the
running `index` (starting at 1), and the header/footer configuration. -/
structure GDocsBuilder where
  requests : List GReq
  index : Int
  headerConfig : Option HeaderFooterConfig
  footerConfig : Option HeaderFooterConfig
deriving Repr, DecidableEq

namespace GDocsBuilder

/-- `new GDocsBuilder()`: empty request list, index 1. -/
def new : GDocsBuilder := ⟨[], 1, none, none⟩

/-- `this.requests.push(r)`. -/
def push (b : GDocsBuilder) (r : GReq) : GDocsBuilder :=
  { b with requests := b.requests ++ [r] }

/-- `setHeader` (lines 85-87). -/
def setHeader (b : GDocsBuilder) (config : HeaderFooterConfig) : GDocsBuilder :=
  { b with headerConfig := some config }

/-- `setFooter` (lines 92-94). -/
def setFooter (b : GDocsBuilder) (config : HeaderFooterConfig) : GDocsBuilder :=
  { b with footerConfig := some config }

/-- `getPhaseRequests` (lines 110-141): phase-1 creation requests for the
configured header and footer, plus the main request list. -/
def getPhaseRequests (b : GDocsBuilder) : PhaseRequests :=
  let phase1Requests :=
    (if b.headerConfig.isSome then [GReq.createHeaderReq] else []) ++
    (if b.footerConfig.isSome then [GReq.createFooterReq] else [])
  { mainRequests := b.requests
    phase1Requests := phase1Requests
    hasHeader := b.headerConfig.isSome
    hasFooter := b.footerConfig.isSome
    headerConfig := b.headerConfig
    footerConfig := b.footerConfig }

/-- `insertText` (lines 154-164): push an insert-text request at the current
index, advance the index by the text length, return the range. -/
def insertText (b : GDocsBuilder) (text : String) :
    GDocsBuilder × Int × Int :=
  let start := b.index
  let b' := { b with
    requests := b.requests ++ [GReq.insertTextReq start text]
    index := b.index + (text.length : Int) }
  (b', start, b'.index)

/-- `applyParagraphStyle` (lines 169-182). -/
def applyParagraphStyle (b : GDocsBuilder) (startIndex endIndex : Int)
    (style : ParaStyle) (fields : String) : GDocsBuilder :=
  b.push (GReq.updateParagraphStyleReq startIndex endIndex style fields)

/-- `applyTextStyle` (lines 187-200). -/
def applyTextStyle (b : GDocsBuilder) (startIndex endIndex : Int)
    (style : TextStyle) (fields : String) : GDocsBuilder :=
  b.push (GReq.updateTextStyleReq startIndex endIndex style fields)

/-- The neutral text style written by `resetTextStyle` (lines 213-224). -/
def resetStyleValue : TextStyle :=
  { bold := some false, italic := some false, underline := some false
    strikethrough := some false
    foregroundColor := some ⟨some 0, some 0, some 0⟩
    backgroundColor := some (some ⟨some 1, some 1, some 1⟩)
    weightedFontFamily := some "Arial", fontSize := some 11
    link := some none, baselineOffset := some "NONE" }

/-- The field mask written by `resetTextStyle` (line 225). -/
def resetFields : String :=
  "bold,italic,underline,strikethrough,foregroundColor,backgroundColor,weightedFontFamily,fontSize,link,baselineOffset"

/-- `resetTextStyle` (lines 209-228): force every inheritable text property
to an explicit neutral value over the given range. -/
def resetTextStyle (b : GDocsBuilder) (startIndex endIndex : Int) : GDocsBuilder :=
  b.push (GReq.updateTextStyleReq startIndex endIndex resetStyleValue resetFields)

end GDocsBuilder

/-- `buildTextStyle` (lines 233-278): include exactly the fields the options
specify (`!== undefined` for the four booleans, truthiness for the rest). -/
def buildTextStyle (options : TextStyleOptions) : TextStyle × List String :=
  let s0 : TextStyle := {}
  let (s1, f1) := match options.bold with
    | some v => ({ s0 with bold := some v }, ["bold"])
    | none => (s0, [])
  let (s2, f2) := match options.italic with
    | some v => ({ s1 with italic := some v }, f1 ++ ["italic"])
    | none => (s1, f1)
  let (s3, f3) := match options.underline with
    | some v => ({ s2 with underline := some v }, f2 ++ ["underline"])
    | none => (s2, f2)
  let (s4, f4) := match options.strikethrough with
    | some v => ({ s3 with strikethrough := some v }, f3 ++ ["strikethrough"])
    | none => (s3, f3)
  let (s5, f5) :=
    if options.color.isSome ∧ options.color ≠ some "" then
      ({ s4 with foregroundColor := some (hexToRgb (options.color.getD "")) },
        f4 ++ ["foregroundColor"])
    else (s4, f4)
  let (s6, f6) :=
    if options.backgroundColor.isSome ∧ options.backgroundColor ≠ some "" then
      ({ s5 with backgroundColor := some (some (hexToRgb (options.backgroundColor.getD ""))) },
        f5 ++ ["backgroundColor"])
    else (s5, f5)
  let (s7, f7) :=
    if options.fontSize.isSome ∧ options.fontSize ≠ some 0 then
      ({ s6 with fontSize := options.fontSize }, f6 ++ ["fontSize"])
    else (s6, f6)
  let (s8, f8) :=
    if options.fontFamily.isSome ∧ options.fontFamily ≠ some "" then
      ({ s7 with weightedFontFamily := options.fontFamily }, f7 ++ ["weightedFontFamily"])
    else (s7, f7)
  let (s9, f9) :=
    if options.link.isSome ∧ options.link ≠ some "" then
      ({ s8 with link := some options.link }, f8 ++ ["link"])
    else (s8, f8)
  (s9, f9)

/-- `fields.join(',')`. -/
def joinComma (fields : List String) : String :=
  String.intercalate "," fields

/-! ## Paragraph options and the remaining insert methods -/

/-- The `options` record of `insertParagraph` / `insertFormattedParagraph`. -/
structure ParagraphOptions where
  alignment : Option String := none
  spaceBefore : Option ℚ := none
  spaceAfter : Option ℚ := none
  lineSpacing : Option ℚ := none
deriving Repr, DecidableEq

/-- A `runPositions` entry of `insertFormattedParagraph` (line 344). -/
structure RunPos where
  start : Int
  stop : Int
  style : Option (TextStyle × String)
deriving Repr, DecidableEq

namespace GDocsBuilder

/-- `applyParagraphOptions` (lines 377-412): emit one paragraph-style request
listing exactly the options present; nothing when no option is given. -/
def applyParagraphOptions (b : GDocsBuilder) (start stop : Int)
    (options : Option ParagraphOptions) : GDocsBuilder :=
  match options with
  | none => b
  | some o =>
    let (st1, f1) :=
      if o.alignment.isSome ∧ o.alignment ≠ some "" then
        (({ alignment := o.alignment } : ParaStyle), ["alignment"])
      else ({}, [])
    let (st2, f2) :=
      match o.spaceBefore with
      | some v => ({ st1 with spaceAbove := some v }, f1 ++ ["spaceAbove"])
      | none => (st1, f1)
    let (st3, f3) :=
      match o.spaceAfter with
      | some v => ({ st2 with spaceBelow := some v }, f2 ++ ["spaceBelow"])
      | none => (st2, f2)
    let (st4, f4) :=
      match o.lineSpacing with
      | some v => ({ st3 with lineSpacing := some v }, f3 ++ ["lineSpacing"])
      | none => (st3, f3)
    if f4.length > 0 then b.applyParagraphStyle start stop st4 (joinComma f4)
    else b

/-- `insertHeading` (lines 287-307): text plus newline, named heading style
over the whole range, colour and bold over the text only, then reset the
terminating newline alone. -/
def insertHeading (b : GDocsBuilder) (text : String) (level : Nat) : GDocsBuilder :=
  let (b, s, e) := b.insertText (text ++ "\n")
  let b := b.applyParagraphStyle s e
    { namedStyleType := some ("HEADING_" ++ toString level) } "namedStyleType"
  let b := b.applyTextStyle s (e - 1)
    { bold := some true
      foregroundColor := some (hexToRgb COLORS.primary_dark) }
    "foregroundColor,bold"
  b.resetTextStyle (e - 1) e

/-- `insertParagraph` (lines 312-327). -/
def insertParagraph (b : GDocsBuilder) (text : String)
    (options : Option ParagraphOptions) : GDocsBuilder :=
  let (b, s, e) := b.insertText (text ++ "\n")
  let b := b.resetTextStyle s e
  b.applyParagraphOptions s e options

/-- The run-insertion loop of `insertFormattedParagraph` (lines 347-355). -/
def insertRunsAux : GDocsBuilder → List RunContent → GDocsBuilder × List RunPos
  | b, [] => (b, [])
  | b, run :: rest =>
    let r1 := b.insertText run.text
    let pos : RunPos :=
      match run.style with
      | some st =>
        let bt := buildTextStyle st
        ⟨r1.2.1, r1.2.2, some (bt.1, joinComma bt.2)⟩
      | none => ⟨r1.2.1, r1.2.2, none⟩
    let r2 := insertRunsAux r1.1 rest
    (r2.1, pos :: r2.2)

/-- The per-run styling loop of `insertFormattedParagraph` (lines 364-368);
a position is styled only when its `fields` string is non-empty (truthiness
of `pos.fields` in the source). -/
def applyRunStyles : GDocsBuilder → List RunPos → GDocsBuilder
  | b, [] => b
  | b, pos :: rest =>
    let b :=
      match pos.style with
      | some (sty, fields) =>
        if fields ≠ "" then b.applyTextStyle pos.start pos.stop sty fields else b
      | none => b
    applyRunStyles b rest

/-- `insertFormattedParagraph` (lines 332-372): insert every run's text, then
the newline, reset the whole paragraph, then layer the runs' styles on top. -/
def insertFormattedParagraph (b : GDocsBuilder) (runs : List RunContent)
    (options : Option ParagraphOptions) : GDocsBuilder :=
  let paraStart := b.index
  let (b, runPositions) := insertRunsAux b runs
  let (b, _, _) := b.insertText "\n"
  let b := b.resetTextStyle paraStart b.index
  let b := applyRunStyles b runPositions
  b.applyParagraphOptions paraStart b.index options

end GDocsBuilder

/-- A list item as passed to `insertBulletList` / `insertNumberedList`. -/
structure ListItemIn where
  text : String
  level : Option Nat := none
deriving Repr, DecidableEq

namespace GDocsBuilder

/-- The item-insertion loop shared by both list methods (lines 422-427 and
467-472): each item is a run of `level` tabs, the text and a newline; the
returned `Nat` is the accumulated `totalTabs`. -/
def insertListItemsAux : GDocsBuilder → List ListItemIn → GDocsBuilder × Nat
  | b, [] => (b, 0)
  | b, item :: rest =>
    let level := item.level.getD 0
    let pfx := String.mk (List.replicate level '\t')
    let (b1, _, _) := b.insertText (pfx ++ item.text ++ "\n")
    let (b2, t) := insertListItemsAux b1 rest
    (b2, level + t)

/-- `insertBulletList` (lines 417-446): insert items, reset the range, create
the bullets, then subtract the consumed tabs from the index. -/
def insertBulletList (b : GDocsBuilder) (items : List ListItemIn) : GDocsBuilder :=
  let listStart := b.index
  let (b, totalTabs) := insertListItemsAux b items
  let listEnd := b.index
  let b := b.resetTextStyle listStart listEnd
  let b := b.push (GReq.createParagraphBullets listStart listEnd
    "BULLET_DISC_CIRCLE_SQUARE")
  { b with index := b.index - (totalTabs : Int) }

end GDocsBuilder

/-- `listStyle` values of `insertNumberedList`. -/
inductive NumberStyle where
  | decimal | legal | decimal_nested | upper_alpha | upper_roman
deriving Repr, DecidableEq

/-- The `presetMap` of `insertNumberedList` (lines 480-486); `legal` falls
back to the decimal preset. -/
def presetFor : NumberStyle → String
  | .decimal => "NUMBERED_DECIMAL_ALPHA_ROMAN"
  | .legal => "NUMBERED_DECIMAL_ALPHA_ROMAN"
  | .decimal_nested => "NUMBERED_DECIMAL_NESTED"
  | .upper_alpha => "NUMBERED_UPPERALPHA_ALPHA_ROMAN"
  | .upper_roman => "NUMBERED_UPPERROMAN_UPPERALPHA_DECIMAL"

namespace GDocsBuilder

/-- `insertNumberedList` (lines 458-505): same shape as `insertBulletList`
with a preset selected from `listStyle` (default `decimal`). -/
def insertNumberedList (b : GDocsBuilder) (items : List ListItemIn)
    (listStyle : Option NumberStyle) : GDocsBuilder :=
  let listStart := b.index
  let (b, totalTabs) := insertListItemsAux b items
  let listEnd := b.index
  let b := b.resetTextStyle listStart listEnd
  let b := b.push (GReq.createParagraphBullets listStart listEnd
    (presetFor (listStyle.getD .decimal)))
  { b with index := b.index - (totalTabs : Int) }

end GDocsBuilder

/-- Callout styles (`insertCallout`'s `style` argument). -/
inductive CalloutStyle where
  | info | warning | critical | success
deriving Repr, DecidableEq

/-- The `colorMap` of `insertCallout` (lines 514-519): background, border and
text colour per style. -/
def calloutColors : CalloutStyle → String × String × String
  | .info => (COLORS.info_bg, COLORS.info_border, COLORS.info_text)
  | .warning => (COLORS.high_bg, COLORS.high_border, COLORS.high_text)
  | .critical => (COLORS.critical_bg, COLORS.critical_border, COLORS.critical_text)
  | .success => (COLORS.low_bg, COLORS.low_border, COLORS.low_text)

namespace GDocsBuilder

/-- `insertCallout` (lines 510-596): a 1×1 table, cell style before content,
content at `tableStart + 4`, text colour, index set to
`tableStart + 6 + content.length`, then a trailing newline. -/
def insertCallout (b : GDocsBuilder) (content : String)
    (style : CalloutStyle) : GDocsBuilder :=
  let colors := calloutColors style
  let tableStart := b.index
  let b := b.push (GReq.insertTableReq 1 1 tableStart)
  let b := b.push (GReq.updateTableCellStyleReq (tableStart + 1) 0 0 1 1
    { backgroundColor := some (hexToRgb colors.1)
      borderLeft := some ⟨hexToRgb colors.2.1, 4, "SOLID", none⟩
      borderTop := some ⟨hexToRgb colors.1, 0, "SOLID", none⟩
      borderBottom := some ⟨hexToRgb colors.1, 0, "SOLID", none⟩
      borderRight := some ⟨hexToRgb colors.1, 0, "SOLID", none⟩
      paddingTop := some 10, paddingBottom := some 10
      paddingLeft := some 12, paddingRight := some 12 }
    "backgroundColor,borderLeft,borderTop,borderBottom,borderRight,paddingTop,paddingBottom,paddingLeft,paddingRight")
  let cellContentIndex := tableStart + 4
  let b := b.push (GReq.insertTextReq cellContentIndex content)
  let b := b.push (GReq.updateTextStyleReq cellContentIndex
    (cellContentIndex + (content.length : Int))
    { foregroundColor := some (hexToRgb colors.2.2) } "foregroundColor")
  let b := { b with index := tableStart + 6 + (content.length : Int) }
  (b.insertText "\n").1

/-- `insertCodeBlock` (lines 608-708): a 1×1 table with gray background and
1pt black borders, monospace text, single line spacing, trailing newline. -/
def insertCodeBlock (b : GDocsBuilder) (content : String) : GDocsBuilder :=
  let tableStart := b.index
  let border : BorderSpec := ⟨hexToRgb "000000", 1, "SOLID", none⟩
  let b := b.push (GReq.insertTableReq 1 1 tableStart)
  let b := b.push (GReq.updateTableCellStyleReq (tableStart + 1) 0 0 1 1
    { backgroundColor := some (hexToRgb "F5F5F5")
      borderLeft := some border, borderRight := some border
      borderTop := some border, borderBottom := some border
      paddingTop := some 8, paddingBottom := some 8
      paddingLeft := some 10, paddingRight := some 10 }
    "backgroundColor,borderLeft,borderRight,borderTop,borderBottom,paddingTop,paddingBottom,paddingLeft,paddingRight")
  let cellContentIndex := tableStart + 4
  let b := b.push (GReq.insertTextReq cellContentIndex content)
  let b := b.push (GReq.updateTextStyleReq cellContentIndex
    (cellContentIndex + (content.length : Int))
    { bold := some false, italic := some false, underline := some false
      strikethrough := some false
      foregroundColor := some ⟨some 0, some 0, some 0⟩
      weightedFontFamily := some "Courier New", fontSize := some 10 }
    "bold,italic,underline,strikethrough,foregroundColor,weightedFontFamily,fontSize")
  let b := b.push (GReq.updateParagraphStyleReq cellContentIndex
    (cellContentIndex + (content.length : Int))
    { lineSpacing := some 100, spaceAbove := some 0, spaceBelow := some 0 }
    "lineSpacing,spaceAbove,spaceBelow")
  let b := { b with index := tableStart + 6 + (content.length : Int) }
  (b.insertText "\n").1

/-- `insertPageBreak` (lines 713-720): one request, index advances by 1. -/
def insertPageBreak (b : GDocsBuilder) : GDocsBuilder :=
  let b := b.push (GReq.insertPageBreakReq b.index)
  { b with index := b.index + 1 }

/-- `insertHorizontalRule` (lines 725-742): a newline styled with a bottom
border. -/
def insertHorizontalRule (b : GDocsBuilder) : GDocsBuilder :=
  let (b, s, e) := b.insertText "\n"
  b.applyParagraphStyle s e
    { borderBottom := some ⟨hexToRgb COLORS.border, 1, "SOLID", some 8⟩
      spaceBelow := some 12 }
    "borderBottom,spaceBelow"

end GDocsBuilder

/-- Options of `insertImage` (width/height in points, alignment). -/
structure ImageOptions where
  width : Option ℚ := none
  height : Option ℚ := none
  alignment : Option HAlign := none
deriving Repr, DecidableEq

namespace GDocsBuilder

/-- `insertImage` (lines 750-804): one inline-image request advancing the
index by 1, an optional alignment paragraph style over the one-unit range,
then a trailing newline. A zero width/height is falsy in the source's
`if (options.width)` checks and therefore dropped. -/
def insertImage (b : GDocsBuilder) (url : String)
    (options : Option ImageOptions) : GDocsBuilder :=
  let o := options.getD {}
  let imageStart := b.index
  let w := match o.width with
    | some v => if v = 0 then none else some v
    | none => none
  let h := match o.height with
    | some v => if v = 0 then none else some v
    | none => none
  let b := b.push (GReq.insertInlineImageReq b.index url w h)
  let b := { b with index := b.index + 1 }
  let b :=
    match o.alignment with
    | some a =>
      if a ≠ HAlign.left then
        b.push (GReq.updateParagraphStyleReq imageStart b.index
          { alignment := some (match a with
              | .center => "CENTER"
              | .right => "END"
              | .left => "") }
          "alignment")
      else b
    | none => b
  (b.insertText "\n").1

/-- `insertDocumentStyle` (lines 810-822): `unshift` one document-style
request to the front of the request list. -/
def insertDocumentStyle (b : GDocsBuilder) : GDocsBuilder :=
  { b with requests := GReq.updateDocumentStyleReq :: b.requests }

end GDocsBuilder

/-! ## Table machinery (`insertTable`, lines 856-1135) -/

/-- A rich table cell as accepted by `insertTable`'s `rows` argument. -/
structure CellObj where
  text : Option String := none
  content : Option String := none
  backgroundColor : Option String := none
  bold : Option Bool := none
  alignment : Option HAlign := none
deriving Repr, DecidableEq

/-- A `rows` entry cell: either a plain string or a rich cell object. -/
inductive CellInput where
  | str (s : String)
  | obj (c : CellObj)
deriving Repr, DecidableEq

/-- The shape cells are normalised to by `normalizeCellData`. -/
structure NormalizedCell where
  text : String
  backgroundColor : Option String := none
  bold : Option Bool := none
  alignment : Option HAlign := none
deriving Repr, DecidableEq

/-- `normalizeCellData` (lines 831-845): strings become text-only cells; rich
cells read `text`, falling back to `content`, falling back to `''`. -/
def normalizeCellData : CellInput → NormalizedCell
  | .str s => { text := s }
  | .obj c =>
    { text := (c.text.orElse (fun _ => c.content)).getD ""
      backgroundColor := c.backgroundColor
      bold := c.bold
      alignment := c.alignment }

/-- `insertTable`'s `options` record (lines 859-863). -/
structure TableOptions where
  headerBold : Option Bool := none
  headerBackground : Option String := none
  columnWidths : Option (List ℚ) := none
deriving Repr, DecidableEq

/-- One `cellData` entry (lines 888-896). -/
structure CellDatum where
  row : Nat
  col : Nat
  text : String
  isHeader : Bool
  backgroundColor : Option String := none
  bold : Option Bool := none
  alignment : Option HAlign := none
deriving Repr, DecidableEq

/-- The table's structural character count (line 879):
`3 + rows * (cols * 2 + 1)`. -/
def structureSize (numRows numCols : Nat) : Nat :=
  3 + numRows * (numCols * 2 + 1)

/-- The base insertion index of the content cell at zero-based `(row, col)`
(lines 925-926): `tableStart + 4 + row * (numCols * 2 + 1) + col * 2`. -/
def cellBaseIndex (tableStart : Int) (row col numCols : Nat) : Int :=
  tableStart + 4 + (row : Int) * ((numCols : Int) * 2 + 1) + (col : Int) * 2

/-- `allRows` (lines 884-887): the header row first, then each data row
normalised. -/
def buildAllRows (headers : List String) (rows : List (List CellInput)) :
    List (List NormalizedCell) :=
  (headers.map (fun h => ({ text := h } : NormalizedCell))) ::
    rows.map (fun row => row.map normalizeCellData)

/-- The `cellData` collection loop (lines 898-913): every non-empty cell in
row-major order, `col` ranging over the header width, missing cells reading
as empty. -/
def buildCellData (allRows : List (List NormalizedCell)) (numCols : Nat) :
    List CellDatum :=
  (List.range allRows.length).flatMap (fun r =>
    (List.range numCols).filterMap (fun c =>
      let cell := (((allRows.get? r).getD []).get? c).getD { text := "" }
      if cell.text ≠ "" then
        some { row := r, col := c, text := cell.text, isHeader := r == 0
               backgroundColor := cell.backgroundColor, bold := cell.bold
               alignment := cell.alignment }
      else none))

/-- The neutral text style of the per-cell resets (lines 949-960); unlike
`resetTextStyle`, `backgroundColor` is an explicit `null` here. -/
def tableCellResetStyle : TextStyle :=
  { bold := some false, italic := some false, underline := some false
    strikethrough := some false
    foregroundColor := some ⟨some 0, some 0, some 0⟩
    backgroundColor := some none
    weightedFontFamily := some "Arial", fontSize := some 11
    link := some none, baselineOffset := some "NONE" }

/-- The field mask of the per-cell resets (line 961). -/
def tableCellResetFields : String :=
  "bold,italic,underline,strikethrough,foregroundColor,backgroundColor,weightedFontFamily,fontSize,link,baselineOffset"

/-- The paragraph-alignment strings of the per-cell `alignmentMap`
(lines 995-999). -/
def alignStr : HAlign → String
  | .left => "START"
  | .center => "CENTER"
  | .right => "END"

/-- The `cellFormats` contributions of one cell (lines 966-1010): header
bold unless `headerBold` is exactly `false`, per-cell bold on non-header
cells, then per-cell alignment. -/
def cellFormatsFor (formatIndex : Int) (len : Nat) (headerBold : Option Bool)
    (cell : CellDatum) : List GReq :=
  (if cell.isHeader ∧ headerBold ≠ some false then
    [GReq.updateTextStyleReq formatIndex (formatIndex + (len : Int))
      { bold := some true } "bold"]
   else []) ++
  (if cell.bold = some true ∧ cell.isHeader = false then
    [GReq.updateTextStyleReq formatIndex (formatIndex + (len : Int))
      { bold := some true } "bold"]
   else []) ++
  (match cell.alignment with
   | some a =>
     [GReq.updateParagraphStyleReq formatIndex (formatIndex + (len : Int))
       { alignment := some (alignStr a) } "alignment"]
   | none => [])

/-- The per-cell loop (lines 923-1011): builds `cellInserts`, `cellResets`
and `cellFormats`; the accumulator is `priorContent`, the total length of the
cells already processed, added to each format range. -/
def cellOpsAux (ts : Int) (numCols : Nat) (headerBold : Option Bool) :
    List CellDatum → Nat → List GReq × List GReq × List GReq
  | [], _ => ([], [], [])
  | cell :: rest, prior =>
    let baseIndex := cellBaseIndex ts cell.row cell.col numCols
    let formatIndex := baseIndex + (prior : Int)
    let (is, rs, fs) := cellOpsAux ts numCols headerBold rest (prior + cell.text.length)
    (GReq.insertTextReq baseIndex cell.text :: is,
     GReq.updateTextStyleReq formatIndex (formatIndex + (cell.text.length : Int))
       tableCellResetStyle tableCellResetFields :: rs,
     cellFormatsFor formatIndex cell.text.length headerBold cell ++ fs)

/-- The `cellBackgrounds` loop (lines 1014-1035): one cell-style request per
non-header cell with a truthy background colour. -/
def cellBackgroundsFor (ts : Int) : List CellDatum → List GReq
  | [] => []
  | cell :: rest =>
    (if (cell.backgroundColor.getD "") ≠ "" ∧ cell.isHeader = false then
      [GReq.updateTableCellStyleReq (ts + 1) cell.row cell.col 1 1
        { backgroundColor := some (hexToRgb (cell.backgroundColor.getD "")) }
        "backgroundColor"]
     else []) ++ cellBackgroundsFor ts rest

/-- The table border spec (lines 1062-1066): 0.5pt solid in `COLORS.border`. -/
def tableBorderSpec : BorderSpec := ⟨hexToRgb COLORS.border, 1/2, "SOLID", none⟩

/-- The column-width requests (lines 1097-1115): only when `columnWidths` is
given with exactly `numCols` entries; widths are percentages of the 468pt
content width. -/
def columnWidthReqs (ts : Int) (numCols : Nat) (cw : Option (List ℚ)) : List GReq :=
  match cw with
  | some widths =>
    if widths.length = numCols then
      (List.range numCols).map (fun col =>
        GReq.updateTableColumnPropertiesReq (ts + 1) [col] "FIXED_WIDTH"
          (468 * widths.getD col 0 / 100) "widthType,width")
    else []
  | none => []

namespace GDocsBuilder

/-- `insertTable` (lines 856-1135). Requests are appended in the source's
push order: the table structure, the header-row background, the border
style, column widths, per-cell backgrounds, the cell content insertions in
reverse order, the per-cell resets, the per-cell formats, and the trailing
newline; the index is then `tableStart + structureSize + total content + 1`. -/
def insertTable (b : GDocsBuilder) (headers : List String)
    (rows : List (List CellInput)) (options : TableOptions) : GDocsBuilder :=
  let numCols := headers.length
  let numRows := rows.length + 1
  let tableStart := b.index
  let b := b.push (GReq.insertTableReq numRows numCols tableStart)
  let allRows := buildAllRows headers rows
  let cellData := buildCellData allRows numCols
  let (cellInserts, cellResets, cellFormats) :=
    cellOpsAux tableStart numCols options.headerBold cellData 0
  let cellBackgrounds := cellBackgroundsFor tableStart cellData
  let bgColor := options.headerBackground.getD COLORS.header_cell
  let b := b.push (GReq.updateTableCellStyleReq (tableStart + 1) 0 0 1 numCols
    { backgroundColor := some (hexToRgb bgColor) } "backgroundColor")
  let b := b.push (GReq.updateTableCellStyleReq (tableStart + 1) 0 0 numRows numCols
    { borderLeft := some tableBorderSpec, borderRight := some tableBorderSpec
      borderTop := some tableBorderSpec, borderBottom := some tableBorderSpec
      paddingTop := some 6, paddingBottom := some 6
      paddingLeft := some 8, paddingRight := some 8 }
    "borderLeft,borderRight,borderTop,borderBottom,paddingTop,paddingBottom,paddingLeft,paddingRight")
  let b := { b with requests := b.requests ++ columnWidthReqs tableStart numCols options.columnWidths }
  let b := { b with requests := b.requests ++ cellBackgrounds }
  let b := { b with requests := b.requests ++ cellInserts.reverse }
  let b := { b with requests := b.requests ++ cellResets }
  let b := { b with requests := b.requests ++ cellFormats }
  let totalCellContent := (cellData.map (fun c => c.text.length)).sum
  let b := { b with
    index := tableStart + (structureSize numRows numCols : Int) + (totalCellContent : Int) }
  (b.insertText "\n").1

end GDocsBuilder

/-! ## Section types and the section-builder bridge
(`src/types/sections.ts`, `src/utils/section-builder.ts`) -/

/-- A `TextRun` of the structured input (`sections.ts` lines 11-22). The
boolean flags default to `false` (absent/falsy). -/
structure STextRun where
  text : String
  bold : Bool := false
  italic : Bool := false
  underline : Bool := false
  strikethrough : Bool := false
  code : Bool := false
  link : Option String := none
  color : Option String := none
  backgroundColor : Option String := none
  fontSize : Option ℚ := none
deriving Repr, DecidableEq

/-- `ParagraphContent`: plain text or a list of styled runs. -/
inductive SParagraphContent where
  | plain (s : String)
  | runs (rs : List STextRun)
deriving Repr, DecidableEq

/-- `section-builder.ts` flattening of `ParagraphContent` to plain text
(used for list items, table cells and callouts). -/
def flattenContent : SParagraphContent → String
  | .plain s => s
  | .runs rs => String.join (rs.map (fun r => r.text))

/-- One run of `toRuns` (`section-builder.ts` lines 28-45): build the style
options from the truthy fields, dropping the style object when empty. -/
def toRunContent (run : STextRun) : RunContent :=
  let st : TextStyleOptions :=
    { bold := if run.bold then some true else none
      italic := if run.italic then some true else none
      underline := if run.underline then some true else none
      strikethrough := if run.strikethrough then some true else none
      link := match run.link with
        | some l => if l ≠ "" then some l else none
        | none => none
      color := match run.color with
        | some c => if c ≠ "" then some c else none
        | none => none
      backgroundColor := match run.backgroundColor with
        | some c => if c ≠ "" then some c else none
        | none => none
      fontSize := match run.fontSize with
        | some q => if q ≠ 0 then some q else none
        | none => none
      fontFamily := if run.code then some "Consolas" else none }
  { text := run.text
    style := if st = ({} : TextStyleOptions) then none else some st }

/-- `toRuns` (`section-builder.ts` lines 23-46). -/
def toRuns : SParagraphContent → List RunContent
  | .plain s => [{ text := s }]
  | .runs rs => rs.map toRunContent

/-- A `ListItem` of the structured input. -/
structure SListItem where
  content : SParagraphContent
  level : Option Nat := none
deriving Repr, DecidableEq

/-- A list `items` entry: a string or a `ListItem`. -/
inductive SListEntry where
  | str (s : String)
  | item (li : SListItem)
deriving Repr, DecidableEq

/-- `normalizeListItems` (`section-builder.ts` lines 51-58). -/
def normalizeListItems (items : List SListEntry) : List SListItem :=
  items.map (fun it =>
    match it with
    | .str s => { content := .plain s, level := some 0 }
    | .item li => { content := li.content, level := some (li.level.getD 0) })

/-- A rich table cell of the structured input (`sections.ts` `TableCell`,
plus the `text` shorthand the bridge accepts). -/
structure STableCellObj where
  text : Option String := none
  content : Option SParagraphContent := none
  backgroundColor : Option String := none
  bold : Option Bool := none
  alignment : Option HAlign := none
deriving Repr, DecidableEq

/-- A table `rows` entry cell: string or rich cell. -/
inductive STableCell where
  | str (s : String)
  | obj (c : STableCellObj)
deriving Repr, DecidableEq

/-- The table-cell mapping of the bridge (`section-builder.ts` lines
136-160): `text` wins over flattened `content`, defaulting to the empty
string; backgrounds, bold and alignment are passed through. -/
def sectionCellToInput : STableCell → CellInput
  | .str s => .str s
  | .obj c =>
    let text :=
      match c.text with
      | some t => t
      | none =>
        match c.content with
        | some pc => flattenContent pc
        | none => ""
    .obj { text := some text, backgroundColor := c.backgroundColor
           bold := c.bold, alignment := c.alignment }

/-- Paragraph alignment of the structured input
(`'left' | 'center' | 'right' | 'justified'`). -/
inductive SAlign where
  | left | center | right | justified
deriving Repr, DecidableEq

/-- The paragraph `alignmentMap` of the bridge (lines 80-85). -/
def sAlignStr : SAlign → String
  | .left => "START"
  | .center => "CENTER"
  | .right => "END"
  | .justified => "JUSTIFIED"

/-- A `Section` of the structured input (`sections.ts` lines 121-131). The
`image` variant carries the resolved public URL; the local-file upload path
is an external collaborator (spec §6) and a missing URL skips the insertion,
as the source does when the upload fails. -/
inductive Section where
  | heading (level : Nat) (text : String)
  | paragraph (content : SParagraphContent) (alignment : Option SAlign)
      (spaceBefore spaceAfter lineSpacing : Option ℚ)
  | bullet_list (items : List SListEntry)
  | numbered_list (items : List SListEntry) (listStyle : Option NumberStyle)
  | table (headers : List String) (rows : List (List STableCell))
      (columnWidths : Option (List ℚ))
  | callout (style : CalloutStyle) (content : SParagraphContent)
  | code_block (content : String)
  | horizontal_rule
  | page_break
  | image (url : Option String) (width height : Option ℚ)
      (alignment : Option HAlign)
deriving Repr, DecidableEq

/-- The `switch` body of `buildFromSections` (`section-builder.ts` lines
71-218) for one section. -/
def applySection (b : GDocsBuilder) : Section → GDocsBuilder
  | .heading level text => b.insertHeading text level
  | .paragraph content alignment sb sa ls =>
    let runs := toRuns content
    let options : ParagraphOptions :=
      { alignment := alignment.map sAlignStr
        spaceBefore := sb, spaceAfter := sa, lineSpacing := ls }
    match runs with
    | [r] =>
      if r.style = none then b.insertParagraph r.text (some options)
      else b.insertFormattedParagraph runs (some options)
    | _ => b.insertFormattedParagraph runs (some options)
  | .bullet_list items =>
    let its := normalizeListItems items
    b.insertBulletList (its.map (fun it =>
      { text := flattenContent it.content, level := some (it.level.getD 0) }))
  | .numbered_list items listStyle =>
    let its := normalizeListItems items
    b.insertNumberedList (its.map (fun it =>
      { text := flattenContent it.content, level := some (it.level.getD 0) }))
      listStyle
  | .table headers rows cw =>
    b.insertTable headers (rows.map (List.map sectionCellToInput))
      { columnWidths := cw }
  | .callout style content => b.insertCallout (flattenContent content) style
  | .code_block content => b.insertCodeBlock content
  | .horizontal_rule => b.insertHorizontalRule
  | .page_break => b.insertPageBreak
  | .image url w h a =>
    match url with
    | some u => b.insertImage u (some { width := w, height := h, alignment := a })
    | none => b

/-- `buildFromSections` (`section-builder.ts` lines 63-223): title heading
first, then every section, then the document-style request is unshifted. -/
def buildFromSections (b : GDocsBuilder) (title : String)
    (sections : List Section) : GDocsBuilder :=
  let b := b.insertHeading title 1
  let b := sections.foldl applySection b
  b.insertDocumentStyle

/-! ## The `create_google_doc` handler's multi-phase batching
(`risk-register.ts` lines 645-852) -/

/-- One entry of `phase1Response.data.replies`: a reply object that may carry
a `createHeader.headerId` or `createFooter.footerId`, or neither. -/
inductive Reply where
  | createHeaderR (headerId : Option String)
  | createFooterR (footerId : Option String)
  | emptyR
deriving Repr, DecidableEq

/-- The optional chaining `replies[i]?.createHeader?.headerId`. -/
def headerIdOf : Option Reply → Option String
  | some (.createHeaderR i) => i
  | _ => none

/-- The optional chaining `replies[i]?.createFooter?.footerId`. -/
def footerIdOf : Option Reply → Option String
  | some (.createFooterR i) => i
  | _ => none

/-- The header text assembled in phase 2 (lines 750-756): configured text
(empty when absent), with a page-number placeholder appended when
`includePageNumber` is truthy, space-separated only if text already exists. -/
def headerTextOf (cfg : HeaderFooterConfig) : String :=
  let t := cfg.text.getD ""
  if cfg.includePageNumber = some true then
    (if t ≠ "" then t ++ " [Page #]" else "[Page #]")
  else t

/-- The footer text assembled in phase 2 (lines 791-797): the placeholder is
appended without a separator. -/
def footerTextOf (cfg : HeaderFooterConfig) : String :=
  let t := cfg.text.getD ""
  if cfg.includePageNumber = some true then t ++ "[Page #]" else t

/-- The populate requests for one segment (lines 758-781 / 799-822): only
when the assembled text is non-empty, an insert at segment offset 0 plus an
optional alignment style over the inserted range. -/
def segmentReqsFor (segId : String) (txt : String)
    (alignment : Option HAlign) : List GReq :=
  if txt ≠ "" then
    [GReq.insertSegmentTextReq segId 0 txt] ++
    (match alignment with
     | some a => [GReq.updateSegmentParagraphStyleReq segId 0 (txt.length : Int)
         (alignStr a)]
     | none => [])
  else []

/-- The header arm of the phase-2 request construction (lines 743-783): the
header reply is expected at index 0; a reply without a `headerId` contributes
nothing. -/
def phase2HeaderReqs (pd : PhaseRequests) (replies : List Reply) : List GReq :=
  if pd.hasHeader then
    match pd.headerConfig with
    | some cfg =>
      match headerIdOf (replies.get? 0) with
      | some hid => segmentReqsFor hid (headerTextOf cfg) cfg.alignment
      | none => []
    | none => []
  else []

/-- The footer arm of phase 2 (lines 785-824); the footer reply index is 1
when a header was also requested, else 0. -/
def phase2FooterReqs (pd : PhaseRequests) (replies : List Reply) : List GReq :=
  if pd.hasFooter then
    match pd.footerConfig with
    | some cfg =>
      match footerIdOf (replies.get? (if pd.hasHeader then 1 else 0)) with
      | some fid => segmentReqsFor fid (footerTextOf cfg) cfg.alignment
      | none => []
    | none => []
  else []

/-- The whole phase-2 request list: header populate requests, then footer
populate requests. -/
def buildPhase2Requests (pd : PhaseRequests) (replies : List Reply) : List GReq :=
  phase2HeaderReqs pd replies ++ phase2FooterReqs pd replies

/-- The sequence of `batchUpdate` calls the handler submits (lines 703-833):
the phase-1 creation batch when non-empty, the structural part of the main
requests, the table-cell-style part, and the phase-2 populate batch built
from the phase-1 replies; every empty batch is skipped. `phase1Replies`
models `phase1Response.data.replies` (absent when the transport returned no
reply array). -/
def submittedBatches (pd : PhaseRequests) (phase1Replies : Option (List Reply)) :
    List (List GReq) :=
  let phase1 := if pd.phase1Requests.length > 0 then [pd.phase1Requests] else []
  let structureRequests := pd.mainRequests.filter (fun r => !r.isCellStyle)
  let cellStyleRequests := pd.mainRequests.filter (fun r => r.isCellStyle)
  let mainBatches :=
    if pd.mainRequests.length > 0 then
      (if structureRequests.length > 0 then [structureRequests] else []) ++
      (if cellStyleRequests.length > 0 then [cellStyleRequests] else [])
    else []
  let phase2 :=
    if pd.phase1Requests.length > 0 then
      match phase1Replies with
      | some rs =>
        let p2 := buildPhase2Requests pd rs
        if p2.length > 0 then [p2] else []
      | none => []
    else []
  phase1 ++ mainBatches ++ phase2

/-- The handler's builder assembly (lines 668-681): fresh builder, header
and footer configuration when provided, then `buildFromSections`. -/
def builderForDocument (title : String) (sections : List Section)
    (header footer : Option HeaderFooterConfig) : GDocsBuilder :=
  let b := GDocsBuilder.new
  let b := match header with
    | some hc => b.setHeader hc
    | none => b
  let b := match footer with
    | some fc => b.setFooter fc
    | none => b
  buildFromSections b title sections

/-- End-to-end batch computation for one `create_google_doc` call, given the
phase-1 reply list the transport returned. -/
def createGoogleDocBatches (title : String) (sections : List Section)
    (header footer : Option HeaderFooterConfig)
    (phase1Replies : Option (List Reply)) : List (List GReq) :=
  submittedBatches ((builderForDocument title sections header footer).getPhaseRequests)
    phase1Replies

/-! ## Basic lemmas about the emitter -/

theorem insertText_fst_index (b : GDocsBuilder) (t : String) :
    ((b.insertText t).1).index = b.index + (t.length : Int) := rfl

theorem insertText_fst_requests (b : GDocsBuilder) (t : String) :
    ((b.insertText t).1).requests = b.requests ++ [GReq.insertTextReq b.index t] := rfl

theorem strLength_append (s t : String) : (s ++ t).length = s.length + t.length :=
  String.length_append s t

theorem strLength_replicate (n : Nat) (c : Char) :
    (String.mk (List.replicate n c)).length = n := by
  show (List.replicate n c).length = n
  simp

/-! ## C2: table geometry -/

/-- `cellDataOf headers rows` is the `cellData` list `insertTable` computes. -/
def cellDataOf (headers : List String) (rows : List (List CellInput)) :
    List CellDatum :=
  buildCellData (buildAllRows headers rows) headers.length

/-- Total length of the non-empty cell contents of a table. -/
def totalCellContentOf (headers : List String) (rows : List (List CellInput)) : Nat :=
  ((cellDataOf headers rows).map (fun c => c.text.length)).sum

theorem cellOpsAux_fst (ts : Int) (numCols : Nat) (hb : Option Bool) :
    ∀ (cd : List CellDatum) (prior : Nat),
      (cellOpsAux ts numCols hb cd prior).1 =
        cd.map (fun cell =>
          GReq.insertTextReq (cellBaseIndex ts cell.row cell.col numCols) cell.text)
  | [], _ => rfl
  | cell :: rest, prior => by
    simp only [cellOpsAux, List.map_cons]
    rw [cellOpsAux_fst ts numCols hb rest (prior + cell.text.length)]

/-- C2: the structural size used by `insertTable` equals `3 + R·(2C+1)`
(17 for R=2, C=3; 6 for the 1×1 callout/code-block table), the base insertion
offset of content cell `(r, c)` equals `tableStart + 4 + r·(2C+1) + 2c` and is
exactly where `insertTable`'s content insertions are addressed, and
`insertCallout` addresses its cell content at `tableStart + 4`. -/
theorem table_geometry_formulas :
    (∀ R C : Nat, structureSize R C = 3 + R * (2 * C + 1)) ∧
    (∀ (ts : Int) (r c C : Nat),
      cellBaseIndex ts r c C = ts + 4 + (r : Int) * (2 * (C : Int) + 1) + 2 * (c : Int)) ∧
    structureSize 2 3 = 17 ∧
    structureSize 1 1 = 6 ∧
    (∀ (ts : Int) (numCols : Nat) (hb : Option Bool) (cd : List CellDatum) (prior : Nat),
      (cellOpsAux ts numCols hb cd prior).1 =
        cd.map (fun cell =>
          GReq.insertTextReq (cellBaseIndex ts cell.row cell.col numCols) cell.text)) ∧
    (∀ (b : GDocsBuilder) (content : String) (style : CalloutStyle),
      (b.insertCallout content style).requests[b.requests.length + 2]? =
        some (GReq.insertTextReq (b.index + 4) content)) := by
  refine ⟨fun R C => by simp only [structureSize]; ring,
    fun ts r c C => by simp only [cellBaseIndex]; ring,
    by decide, by decide,
    fun ts numCols hb cd prior => cellOpsAux_fst ts numCols hb cd prior,
    fun b content style => ?_⟩
  simp only [GDocsBuilder.insertCallout, GDocsBuilder.push, GDocsBuilder.insertText,
    List.append_assoc, List.singleton_append]
  rw [List.getElem?_append_right (by omega)]
  have h2 : b.requests.length + 2 - b.requests.length = 2 := by omega
  rw [h2]
  rfl

/-! ## C3: list cursor adjustment -/

/-- Total characters inserted by the list item loop:
per item, `level` tabs plus the text plus the newline. -/
def listItemsInsertedLen (items : List ListItemIn) : Nat :=
  (items.map (fun it => it.level.getD 0 + it.text.length + 1)).sum

/-- Total nesting levels (= tabs inserted) of a list. -/
def totalLevels (items : List ListItemIn) : Nat :=
  (items.map (fun it => it.level.getD 0)).sum

theorem insertListItemsAux_spec (b : GDocsBuilder) :
    ∀ items : List ListItemIn,
      ((GDocsBuilder.insertListItemsAux b items).1.index
          = b.index + (listItemsInsertedLen items : Int)) ∧
      ((GDocsBuilder.insertListItemsAux b items).2 = totalLevels items) := by
  intro items
  induction items generalizing b with
  | nil => simp [GDocsBuilder.insertListItemsAux, listItemsInsertedLen, totalLevels]
  | cons item rest ih =>
    simp only [GDocsBuilder.insertListItemsAux, GDocsBuilder.insertText]
    obtain ⟨ih1, ih2⟩ := ih { b with
      requests := b.requests ++ [GReq.insertTextReq b.index
        (String.mk (List.replicate (item.level.getD 0) '\t') ++ item.text ++ "\n")]
      index := b.index + ((String.mk (List.replicate (item.level.getD 0) '\t')
        ++ item.text ++ "\n").length : Int) }
    have hlen : (String.mk (List.replicate (item.level.getD 0) '\t')
        ++ item.text ++ "\n").length = item.level.getD 0 + item.text.length + 1 := by
      rw [strLength_append, strLength_append, strLength_replicate]
      rfl
    refine ⟨?_, ?_⟩
    · rw [ih1]
      simp only [listItemsInsertedLen, List.map_cons, List.sum_cons, hlen]
      push_cast
      ring
    · rw [ih2]
      simp [totalLevels]

theorem applyTextStyle_index (b : GDocsBuilder) (s e : Int) (st : TextStyle) (f : String) :
    (b.applyTextStyle s e st f).index = b.index := rfl

theorem resetTextStyle_index (b : GDocsBuilder) (s e : Int) :
    (b.resetTextStyle s e).index = b.index := rfl

theorem push_index (b : GDocsBuilder) (r : GReq) : (b.push r).index = b.index := rfl

theorem applyParagraphOptions_index (b : GDocsBuilder) (s e : Int)
    (o : Option ParagraphOptions) :
    (b.applyParagraphOptions s e o).index = b.index := by
  cases o with
  | none => rfl
  | some o =>
    simp only [GDocsBuilder.applyParagraphOptions, GDocsBuilder.applyParagraphStyle,
      GDocsBuilder.push]
    repeat' split
    all_goals rfl

theorem applyRunStyles_index (ps : List RunPos) :
    ∀ b : GDocsBuilder, (GDocsBuilder.applyRunStyles b ps).index = b.index := by
  induction ps with
  | nil => intro b; rfl
  | cons pos rest ih =>
    intro b
    simp only [GDocsBuilder.applyRunStyles]
    rcases pos.style with _ | ⟨sty, fields⟩
    · exact ih b
    · dsimp only
      split
      · exact ih _
      · exact ih b

/-- Total text length of a run list. -/
def runsLen (runs : List RunContent) : Nat :=
  (runs.map (fun r => r.text.length)).sum

theorem insertRunsAux_fst_index (runs : List RunContent) :
    ∀ b : GDocsBuilder,
      (GDocsBuilder.insertRunsAux b runs).1.index = b.index + (runsLen runs : Int) := by
  induction runs with
  | nil => intro b; simp [GDocsBuilder.insertRunsAux, runsLen]
  | cons run rest ih =>
    intro b
    simp only [GDocsBuilder.insertRunsAux]
    rw [ih ((b.insertText run.text).1), insertText_fst_index]
    simp only [runsLen, List.map_cons, List.sum_cons]
    push_cast
    ring

theorem insertHeading_index (b : GDocsBuilder) (t : String) (l : Nat) :
    (b.insertHeading t l).index = b.index + (t.length : Int) + 1 := by
  simp only [GDocsBuilder.insertHeading, GDocsBuilder.applyParagraphStyle,
    GDocsBuilder.applyTextStyle, GDocsBuilder.resetTextStyle, GDocsBuilder.push,
    GDocsBuilder.insertText]
  have hn : ("\n" : String).length = 1 := rfl
  rw [strLength_append, hn]
  push_cast
  ring

theorem insertParagraph_index (b : GDocsBuilder) (t : String)
    (o : Option ParagraphOptions) :
    (b.insertParagraph t o).index = b.index + (t.length : Int) + 1 := by
  simp only [GDocsBuilder.insertParagraph]
  have hn : ("\n" : String).length = 1 := rfl
  rw [applyParagraphOptions_index, resetTextStyle_index, insertText_fst_index,
    strLength_append, hn]
  push_cast
  ring

theorem insertFormattedParagraph_index (b : GDocsBuilder) (runs : List RunContent)
    (o : Option ParagraphOptions) :
    (b.insertFormattedParagraph runs o).index = b.index + (runsLen runs : Int) + 1 := by
  simp only [GDocsBuilder.insertFormattedParagraph]
  rw [applyParagraphOptions_index, applyRunStyles_index, resetTextStyle_index,
    insertText_fst_index, insertRunsAux_fst_index]
  rfl

theorem insertHorizontalRule_index (b : GDocsBuilder) :
    (b.insertHorizontalRule).index = b.index + 1 := by
  simp only [GDocsBuilder.insertHorizontalRule, GDocsBuilder.applyParagraphStyle,
    GDocsBuilder.push, GDocsBuilder.insertText]
  rfl

theorem insertPageBreak_index (b : GDocsBuilder) :
    (b.insertPageBreak).index = b.index + 1 := rfl

theorem insertImage_index (b : GDocsBuilder) (url : String)
    (o : Option ImageOptions) :
    (b.insertImage url o).index = b.index + 2 := by
  simp only [GDocsBuilder.insertImage, GDocsBuilder.push, GDocsBuilder.insertText]
  have hn : (("\n" : String).length : Int) = 1 := rfl
  rcases (o.getD {}).alignment with _ | a
  · dsimp only
    rw [hn]
    ring
  · dsimp only
    split
    · dsimp only
      rw [hn]
      ring
    · dsimp only
      rw [hn]
      ring

/-- C3: for both list methods, the final index is the index reached by the
item insertions minus the total of the items' nesting levels — the net
adjustment after the create-list request is exactly `-(Σ levels)`; for levels
`[0,1,2,0]` the total is 3, and a list whose items are all at level 0 gets
no adjustment. -/
theorem list_cursor_adjustment :
    (∀ (b : GDocsBuilder) (items : List ListItemIn),
      (b.insertBulletList items).index
        = (b.index + (listItemsInsertedLen items : Int)) - (totalLevels items : Int)) ∧
    (∀ (b : GDocsBuilder) (items : List ListItemIn) (ls : Option NumberStyle),
      (b.insertNumberedList items ls).index
        = (b.index + (listItemsInsertedLen items : Int)) - (totalLevels items : Int)) ∧
    (∀ t0 t1 t2 t3 : String,
      totalLevels [⟨t0, some 0⟩, ⟨t1, some 1⟩, ⟨t2, some 2⟩, ⟨t3, some 0⟩] = 3) ∧
    (∀ (b : GDocsBuilder) (items : List ListItemIn),
      (∀ it ∈ items, it.level.getD 0 = 0) →
      (b.insertBulletList items).index
        = b.index + (listItemsInsertedLen items : Int)) := by
  have hb : ∀ (b : GDocsBuilder) (items : List ListItemIn),
      (b.insertBulletList items).index
        = (b.index + (listItemsInsertedLen items : Int)) - (totalLevels items : Int) := by
    intro b items
    have h1 := (insertListItemsAux_spec b items).1
    have h2 := (insertListItemsAux_spec b items).2
    rcases hp : GDocsBuilder.insertListItemsAux b items with ⟨b1, t⟩
    rw [hp] at h1 h2
    simp only [GDocsBuilder.insertBulletList, hp, GDocsBuilder.resetTextStyle,
      GDocsBuilder.push]
    dsimp only at h1 h2 ⊢
    rw [h1, h2]
  have hzero : ∀ items : List ListItemIn,
      (∀ it ∈ items, it.level.getD 0 = 0) → totalLevels items = 0 := by
    intro items h
    apply List.sum_eq_zero
    intro x hx
    obtain ⟨it, hit, rfl⟩ := List.mem_map.mp hx
    exact h it hit
  refine ⟨hb, ?_, ?_, ?_⟩
  · intro b items ls
    have h1 := (insertListItemsAux_spec b items).1
    have h2 := (insertListItemsAux_spec b items).2
    rcases hp : GDocsBuilder.insertListItemsAux b items with ⟨b1, t⟩
    rw [hp] at h1 h2
    simp only [GDocsBuilder.insertNumberedList, hp, GDocsBuilder.resetTextStyle,
      GDocsBuilder.push]
    dsimp only at h1 h2 ⊢
    rw [h1, h2]
  · intro t0 t1 t2 t3
    simp [totalLevels]
  · intro b items h
    rw [hb b items, hzero items h]
    simp

/-- Witness for `list_cursor_adjustment`: a two-item level-0 bullet list gets
no adjustment. -/
theorem list_cursor_adjustment_witness :
    (∀ it ∈ ([⟨"A", some 0⟩, ⟨"B", some 0⟩] : List ListItemIn), it.level.getD 0 = 0) ∧
    (GDocsBuilder.insertBulletList GDocsBuilder.new
        [⟨"A", some 0⟩, ⟨"B", some 0⟩]).index
      = GDocsBuilder.new.index
        + (listItemsInsertedLen [⟨"A", some 0⟩, ⟨"B", some 0⟩] : Int) :=
  ⟨by decide, list_cursor_adjustment.2.2.2 GDocsBuilder.new
    [⟨"A", some 0⟩, ⟨"B", some 0⟩] (by decide)⟩

/-! ## C1: the cursor/length sum law -/

/-- The builder operations that insert only text strings (headings, plain and
formatted paragraphs, the rule), plus the two one-unit operations
(`insertPageBreak`, `insertImage`). -/
inductive InsertionBlock where
  | heading (text : String) (level : Nat)
  | paragraph (text : String) (options : Option ParagraphOptions)
  | formatted (runs : List RunContent) (options : Option ParagraphOptions)
  | rule
  | pageBreak
  | image (url : String) (options : Option ImageOptions)
deriving Repr

/-- Apply one such operation to the builder. -/
def applyInsertion (b : GDocsBuilder) : InsertionBlock → GDocsBuilder
  | .heading t l => b.insertHeading t l
  | .paragraph t o => b.insertParagraph t o
  | .formatted runs o => b.insertFormattedParagraph runs o
  | .rule => b.insertHorizontalRule
  | .pageBreak => b.insertPageBreak
  | .image u o => b.insertImage u o

/-- Sum of the lengths of the strings the operation inserts (headings and
paragraphs append a newline; the rule inserts a lone newline; the image
inserts its trailing newline; the page break inserts no string). -/
def insertedStringLen : InsertionBlock → Nat
  | .heading t _ => t.length + 1
  | .paragraph t _ => t.length + 1
  | .formatted runs _ => runsLen runs + 1
  | .rule => 1
  | .pageBreak => 0
  | .image _ _ => 1

/-- The cursor units the operation advances without inserting a string
(1 for the page-break marker and 1 for the inline image object). -/
def unitAdvance : InsertionBlock → Nat
  | .pageBreak => 1
  | .image _ _ => 1
  | _ => 0

theorem applyInsertion_index (b : GDocsBuilder) (blk : InsertionBlock) :
    (applyInsertion b blk).index
      = b.index + (insertedStringLen blk : Int) + (unitAdvance blk : Int) := by
  cases blk with
  | heading t l =>
    rw [applyInsertion, insertHeading_index]
    simp [insertedStringLen, unitAdvance]
    ring
  | paragraph t o =>
    rw [applyInsertion, insertParagraph_index]
    simp [insertedStringLen, unitAdvance]
    ring
  | formatted runs o =>
    rw [applyInsertion, insertFormattedParagraph_index]
    simp [insertedStringLen, unitAdvance]
    ring
  | rule =>
    rw [applyInsertion, insertHorizontalRule_index]
    simp [insertedStringLen, unitAdvance]
  | pageBreak =>
    rw [applyInsertion, insertPageBreak_index]
    simp [insertedStringLen, unitAdvance]
  | image u o =>
    rw [applyInsertion, insertImage_index]
    simp [insertedStringLen, unitAdvance]
    ring

theorem foldl_applyInsertion_index (blocks : List InsertionBlock) :
    ∀ b : GDocsBuilder,
      (blocks.foldl applyInsertion b).index
        = b.index + ((blocks.map
            (fun blk => insertedStringLen blk + unitAdvance blk)).sum : Int) := by
  induction blocks with
  | nil => intro b; simp
  | cons blk rest ih =>
    intro b
    simp only [List.foldl_cons, List.map_cons, List.sum_cons]
    rw [ih (applyInsertion b blk), applyInsertion_index]
    push_cast
    ring

/-- C1 (amended): starting from a fresh builder, after any sequence of the
non-list non-table insertions the cursor equals 1 plus the sum of the lengths
of every inserted string plus one unit for every page break and every image;
for sequences of text-only insertions (no page break, no image) the unit sum
is 0 and the cursor is exactly `1 + Σ lengths`. -/
theorem cursor_sum_law :
    (∀ blocks : List InsertionBlock,
      ((blocks.foldl applyInsertion GDocsBuilder.new).index
        = 1 + ((blocks.map
            (fun blk => insertedStringLen blk + unitAdvance blk)).sum : Int))) ∧
    (∀ blocks : List InsertionBlock,
      (∀ blk ∈ blocks, unitAdvance blk = 0) →
      ((blocks.foldl applyInsertion GDocsBuilder.new).index
        = 1 + ((blocks.map insertedStringLen).sum : Int))) := by
  constructor
  · intro blocks
    rw [foldl_applyInsertion_index]
    rfl
  · intro blocks h
    rw [foldl_applyInsertion_index]
    have : (blocks.map (fun blk => insertedStringLen blk + unitAdvance blk))
        = blocks.map insertedStringLen := by
      apply List.map_congr_left
      intro blk hblk
      simp [h blk hblk]
    rw [this]
    rfl

/-- Witness for `cursor_sum_law`: a heading followed by a paragraph (both
text-only, unit advance 0). -/
theorem cursor_sum_law_witness :
    (∀ blk ∈ [InsertionBlock.heading "T" 1, InsertionBlock.paragraph "ab" none],
      unitAdvance blk = 0) ∧
    (([InsertionBlock.heading "T" 1, InsertionBlock.paragraph "ab" none].foldl
        applyInsertion GDocsBuilder.new).index
      = 1 + (([InsertionBlock.heading "T" 1,
          InsertionBlock.paragraph "ab" none].map insertedStringLen).sum : Int)) :=
  ⟨by decide, cursor_sum_law.2
    [InsertionBlock.heading "T" 1, InsertionBlock.paragraph "ab" none] (by decide)⟩

/-- Counterexample deciding C1's open case: a single `insertPageBreak` leaves
the cursor at 2, while `1 + Σ inserted-string lengths` is 1 — the sum law as
stated does not extend to page breaks. -/
theorem cursor_sum_law_pagebreak_cex :
    (([InsertionBlock.pageBreak].foldl applyInsertion GDocsBuilder.new).index = 2) ∧
    ((1 : Int) + (([InsertionBlock.pageBreak].map insertedStringLen).sum : Int) = 1) := by
  constructor
  · rfl
  · rfl

/-! ## C4: reset-then-layer for a one-bold-run paragraph -/

/-- C4: a formatted paragraph with exactly one bold run emits, after the two
text insertions, exactly two style requests in order: the neutral reset over
the whole paragraph range including the terminating newline, then a bold-only
request (field mask exactly `bold`) over the run's sub-range excluding the
terminator. -/
theorem formatted_paragraph_reset_then_layer (b : GDocsBuilder) (t : String) :
    (b.insertFormattedParagraph
        [{ text := t, style := some { bold := some true } }] none).requests
      = b.requests ++
        [GReq.insertTextReq b.index t,
         GReq.insertTextReq (b.index + (t.length : Int)) "\n",
         GReq.updateTextStyleReq b.index (b.index + (t.length : Int) + 1)
           GDocsBuilder.resetStyleValue GDocsBuilder.resetFields,
         GReq.updateTextStyleReq b.index (b.index + (t.length : Int))
           ({ bold := some true } : TextStyle) "bold"] := by
  have hn : (("\n" : String).length : Int) = 1 := rfl
  have hbt : buildTextStyle { bold := some true } = ({ bold := some true }, ["bold"]) := rfl
  have hj : joinComma ["bold"] = "bold" := rfl
  simp only [GDocsBuilder.insertFormattedParagraph, GDocsBuilder.insertRunsAux,
    GDocsBuilder.insertText, GDocsBuilder.applyRunStyles,
    GDocsBuilder.resetTextStyle, GDocsBuilder.applyParagraphOptions,
    GDocsBuilder.applyTextStyle, GDocsBuilder.push, hbt, hj]
  simp [hn, List.append_assoc]

/-! ## C5: table request emission order -/

/-- C5 (amended): `insertTable` appends its requests in exactly this order:
the table structure, the header-row background, then the cell border/padding
styling, then column widths, per-cell backgrounds, the content insertions in
reverse cell order, the per-cell text resets, the text/format overlays, and
the trailing newline. (The source pushes the header-row background before
the border styling, not after.) -/
theorem table_emission_order (b : GDocsBuilder) (headers : List String)
    (rows : List (List CellInput)) (options : TableOptions) :
    (b.insertTable headers rows options).requests
      = b.requests
        ++ [GReq.insertTableReq (rows.length + 1) headers.length b.index,
            GReq.updateTableCellStyleReq (b.index + 1) 0 0 1 headers.length
              { backgroundColor :=
                  some (hexToRgb (options.headerBackground.getD COLORS.header_cell)) }
              "backgroundColor",
            GReq.updateTableCellStyleReq (b.index + 1) 0 0 (rows.length + 1) headers.length
              { borderLeft := some tableBorderSpec, borderRight := some tableBorderSpec
                borderTop := some tableBorderSpec, borderBottom := some tableBorderSpec
                paddingTop := some 6, paddingBottom := some 6
                paddingLeft := some 8, paddingRight := some 8 }
              "borderLeft,borderRight,borderTop,borderBottom,paddingTop,paddingBottom,paddingLeft,paddingRight"]
        ++ columnWidthReqs b.index headers.length options.columnWidths
        ++ cellBackgroundsFor b.index (cellDataOf headers rows)
        ++ ((cellOpsAux b.index headers.length options.headerBold
              (cellDataOf headers rows) 0).1).reverse
        ++ (cellOpsAux b.index headers.length options.headerBold
              (cellDataOf headers rows) 0).2.1
        ++ (cellOpsAux b.index headers.length options.headerBold
              (cellDataOf headers rows) 0).2.2
        ++ [GReq.insertTextReq
              (b.index + (structureSize (rows.length + 1) headers.length : Int)
                + (totalCellContentOf headers rows : Int)) "\n"] := by
  rcases hp : cellOpsAux b.index headers.length options.headerBold
      (buildCellData (buildAllRows headers rows) headers.length) 0 with ⟨is, rs, fs⟩
  simp only [GDocsBuilder.insertTable, GDocsBuilder.push, GDocsBuilder.insertText,
    cellDataOf, totalCellContentOf, hp]
  simp [List.append_assoc]

/-- Counterexample to C5 as stated: for a concrete 2×1 table the request at
position 1 is the header-row background (field mask `backgroundColor`) and
the request at position 2 is the border styling — the header background is
emitted before the borders, not after. -/
theorem table_order_headerbg_first_cex :
    (((GDocsBuilder.new.insertTable ["H"] [[CellInput.str "a"]] {}).requests[1]?).map
        GReq.fieldsOf = some "backgroundColor") ∧
    (((GDocsBuilder.new.insertTable ["H"] [[CellInput.str "a"]] {}).requests[2]?).map
        GReq.fieldsOf
      = some "borderLeft,borderRight,borderTop,borderBottom,paddingTop,paddingBottom,paddingLeft,paddingRight") ∧
    (((GDocsBuilder.new.insertTable ["H"] [[CellInput.str "a"]] {}).requests[1]?).map
        GReq.isCellStyle = some true) ∧
    (((GDocsBuilder.new.insertTable ["H"] [[CellInput.str "a"]] {}).requests[2]?).map
        GReq.isCellStyle = some true) := by
  refine ⟨?_, ?_, ?_, ?_⟩ <;> rfl

/-! ## C9: table-family blocks append a trailing newline -/

/-- C9: every table, callout and code-block insertion pushes one extra
newline insertion after the table, so the cursor immediately after the block
is `tableStart + structural size + total non-empty cell content + 1` — one
more than the structural-size-plus-content figure. -/
theorem table_blocks_trailing_newline :
    (∀ (b : GDocsBuilder) (headers : List String) (rows : List (List CellInput))
        (options : TableOptions),
      (b.insertTable headers rows options).index
        = b.index + (structureSize (rows.length + 1) headers.length : Int)
          + (totalCellContentOf headers rows : Int) + 1 ∧
      (b.insertTable headers rows options).requests.getLast?
        = some (GReq.insertTextReq
            (b.index + (structureSize (rows.length + 1) headers.length : Int)
              + (totalCellContentOf headers rows : Int)) "\n")) ∧
    (∀ (b : GDocsBuilder) (content : String) (style : CalloutStyle),
      (b.insertCallout content style).index
        = b.index + 6 + (content.length : Int) + 1 ∧
      (b.insertCallout content style).requests.getLast?
        = some (GReq.insertTextReq (b.index + 6 + (content.length : Int)) "\n")) ∧
    (∀ (b : GDocsBuilder) (content : String),
      (b.insertCodeBlock content).index
        = b.index + 6 + (content.length : Int) + 1 ∧
      (b.insertCodeBlock content).requests.getLast?
        = some (GReq.insertTextReq (b.index + 6 + (content.length : Int)) "\n")) := by
  have hn : (("\n" : String).length : Int) = 1 := rfl
  refine ⟨fun b headers rows options => ?_, fun b content style => ?_, fun b content => ?_⟩
  · rcases hp : cellOpsAux b.index headers.length options.headerBold
        (buildCellData (buildAllRows headers rows) headers.length) 0 with ⟨is, rs, fs⟩
    constructor
    · simp only [GDocsBuilder.insertTable, GDocsBuilder.push, GDocsBuilder.insertText,
        totalCellContentOf, cellDataOf, hp]
      rw [hn]
    · simp only [GDocsBuilder.insertTable, GDocsBuilder.push, GDocsBuilder.insertText,
        totalCellContentOf, cellDataOf, hp]
      rw [List.getLast?_concat]
  · constructor
    · simp only [GDocsBuilder.insertCallout, GDocsBuilder.push, GDocsBuilder.insertText]
      rw [hn]
    · simp only [GDocsBuilder.insertCallout, GDocsBuilder.push, GDocsBuilder.insertText]
      rw [List.getLast?_concat]
  · constructor
    · simp only [GDocsBuilder.insertCodeBlock, GDocsBuilder.push, GDocsBuilder.insertText]
      rw [hn]
    · simp only [GDocsBuilder.insertCodeBlock, GDocsBuilder.push, GDocsBuilder.insertText]
      rw [List.getLast?_concat]

/-! ## C8 / C10: hexToRgb behaviour -/

theorem isHexDigitB_ranges (c : Char) (h : isHexDigitB c = true) :
    (48 ≤ c.toNat ∧ c.toNat ≤ 57) ∨ (97 ≤ c.toNat ∧ c.toNat ≤ 102) ∨
      (65 ≤ c.toNat ∧ c.toNat ≤ 70) := by
  simpa [isHexDigitB] using h

theorem hexVal_le_15 (c : Char) (h : isHexDigitB c = true) : hexVal c ≤ 15 := by
  have hr := isHexDigitB_ranges c h
  unfold hexVal
  split_ifs <;> omega

theorem hexDigit_not_ws (c : Char) (h : isHexDigitB c = true) : isJsWs c = false := by
  have hr := isHexDigitB_ranges c h
  cases hw : isJsWs c
  · rfl
  · exfalso
    have : c = ' ' ∨ c = '\t' ∨ c = '\n' ∨ c = '\x0d' := by
      simpa [isJsWs] using hw
    rcases this with rfl | rfl | rfl | rfl <;> simp_all
  
theorem hexDigit_ne (c d : Char) (h : isHexDigitB c = true)
    (hd : isHexDigitB d = false) : c ≠ d := by
  intro he
  rw [he, hd] at h
  exact Bool.false_ne_true h

theorem parseHexMag_two (c0 c1 : Char) (h0 : isHexDigitB c0 = true)
    (h1 : isHexDigitB c1 = true) :
    parseHexMag [c0, c1] = some (hexVal c0 * 16 + hexVal c1) := by
  have hx : ¬(c0 = '0' ∧ (c1 = 'x' ∨ c1 = 'X')) := by
    rintro ⟨h00, rfl | rfl⟩ <;> simp_all [isHexDigitB]
  simp only [parseHexMag, stripHexPrefix, if_neg hx]
  simp [List.takeWhile, h0, h1]

theorem jsParseIntHex_two (c0 c1 : Char) (h0 : isHexDigitB c0 = true)
    (h1 : isHexDigitB c1 = true) :
    jsParseIntHex [c0, c1] = some ((hexVal c0 * 16 + hexVal c1 : Nat) : Int) := by
  have hw0 := hexDigit_not_ws c0 h0
  have hminus : c0 ≠ '-' := hexDigit_ne c0 '-' h0 (by decide)
  have hplus : c0 ≠ '+' := hexDigit_ne c0 '+' h0 (by decide)
  simp only [jsParseIntHex, List.dropWhile, hw0, if_neg hminus, if_neg hplus]
  rw [parseHexMag_two c0 c1 h0 h1]
  rfl

theorem removeFirstHash_no_hash (cs : List Char) (h : ∀ c ∈ cs, c ≠ '#') :
    removeFirstHash cs = cs := by
  induction cs with
  | nil => rfl
  | cons c rest ih =>
    rw [removeFirstHash, if_neg (h c (List.mem_cons_self c rest))]
    rw [ih (fun d hd => h d (List.mem_cons_of_mem c hd))]

theorem qdiv255_in_unit (n : Nat) (h : n ≤ 255) :
    0 ≤ ((n : Nat) : ℚ) / 255 ∧ ((n : Nat) : ℚ) / 255 ≤ 1 := by
  constructor
  · positivity
  · rw [div_le_one (by norm_num)]
    exact_mod_cast h

/-- The value `hexToRgb` produces at a cleaned list starting with six hex
digits: byte pairs divided by 255. -/
theorem hexToRgb_clean_eval (s : String) (c0 c1 c2 c3 c4 c5 : Char)
    (rest : List Char)
    (hclean : removeFirstHash s.data = c0 :: c1 :: c2 :: c3 :: c4 :: c5 :: rest)
    (h0 : isHexDigitB c0 = true) (h1 : isHexDigitB c1 = true)
    (h2 : isHexDigitB c2 = true) (h3 : isHexDigitB c3 = true)
    (h4 : isHexDigitB c4 = true) (h5 : isHexDigitB c5 = true) :
    hexToRgb s = ⟨some (((hexVal c0 * 16 + hexVal c1 : Nat) : ℚ) / 255),
                  some (((hexVal c2 * 16 + hexVal c3 : Nat) : ℚ) / 255),
                  some (((hexVal c4 * 16 + hexVal c5 : Nat) : ℚ) / 255)⟩ := by
  have hsub0 : jsSubstring (c0 :: c1 :: c2 :: c3 :: c4 :: c5 :: rest) 0 2 = [c0, c1] := rfl
  have hsub2 : jsSubstring (c0 :: c1 :: c2 :: c3 :: c4 :: c5 :: rest) 2 4 = [c2, c3] := rfl
  have hsub4 : jsSubstring (c0 :: c1 :: c2 :: c3 :: c4 :: c5 :: rest) 4 6 = [c4, c5] := rfl
  simp only [hexToRgb]
  rw [hclean, hsub0, hsub2, hsub4, jsParseIntHex_two c0 c1 h0 h1,
    jsParseIntHex_two c2 c3 h2 h3, jsParseIntHex_two c4 c5 h4 h5]
  simp

/-- The byte value of two hex digits is at most 255. -/
theorem twoHex_le_255 (c0 c1 : Char) (h0 : isHexDigitB c0 = true)
    (h1 : isHexDigitB c1 = true) : hexVal c0 * 16 + hexVal c1 ≤ 255 := by
  have := hexVal_le_15 c0 h0
  have := hexVal_le_15 c1 h1
  omega

/-- C10: `hexToRgb` strips the first `#` (so a leading `#` is removed), and
for every string whose post-strip first six characters are hex digits it
returns exactly the three byte values divided by 255, each lying in `[0, 1]`;
being a total function of the embedding, it raises no error on any input. -/
theorem hexToRgb_total_byte_semantics :
    (∀ cs : List Char, removeFirstHash ('#' :: cs) = cs) ∧
    (∀ (s : String) (c0 c1 c2 c3 c4 c5 : Char) (rest : List Char),
      removeFirstHash s.data = c0 :: c1 :: c2 :: c3 :: c4 :: c5 :: rest →
      isHexDigitB c0 = true → isHexDigitB c1 = true →
      isHexDigitB c2 = true → isHexDigitB c3 = true →
      isHexDigitB c4 = true → isHexDigitB c5 = true →
      hexToRgb s = ⟨some (((hexVal c0 * 16 + hexVal c1 : Nat) : ℚ) / 255),
                    some (((hexVal c2 * 16 + hexVal c3 : Nat) : ℚ) / 255),
                    some (((hexVal c4 * 16 + hexVal c5 : Nat) : ℚ) / 255)⟩ ∧
      ∀ q ∈ [((hexVal c0 * 16 + hexVal c1 : Nat) : ℚ) / 255,
             ((hexVal c2 * 16 + hexVal c3 : Nat) : ℚ) / 255,
             ((hexVal c4 * 16 + hexVal c5 : Nat) : ℚ) / 255], 0 ≤ q ∧ q ≤ 1) := by
  constructor
  · intro cs
    rw [removeFirstHash, if_pos rfl]
  · intro s c0 c1 c2 c3 c4 c5 rest hclean h0 h1 h2 h3 h4 h5
    refine ⟨hexToRgb_clean_eval s c0 c1 c2 c3 c4 c5 rest hclean h0 h1 h2 h3 h4 h5, ?_⟩
    intro q hq
    simp only [List.mem_cons, List.not_mem_nil, or_false] at hq
    rcases hq with rfl | rfl | rfl
    · exact qdiv255_in_unit _ (twoHex_le_255 c0 c1 h0 h1)
    · exact qdiv255_in_unit _ (twoHex_le_255 c2 c3 h2 h3)
    · exact qdiv255_in_unit _ (twoHex_le_255 c4 c5 h4 h5)

/-- Witness for `hexToRgb_total_byte_semantics` at the input `"#1F4E79"`. -/
theorem hexToRgb_total_byte_semantics_witness :
    hexToRgb "#1F4E79" = ⟨some (((hexVal '1' * 16 + hexVal 'F' : Nat) : ℚ) / 255),
                          some (((hexVal '4' * 16 + hexVal 'E' : Nat) : ℚ) / 255),
                          some (((hexVal '7' * 16 + hexVal '9' : Nat) : ℚ) / 255)⟩ :=
  (hexToRgb_total_byte_semantics.2 "#1F4E79" '1' 'F' '4' 'E' '7' '9' []
    (by decide) (by decide) (by decide) (by decide) (by decide) (by decide)
    (by decide)).1

/-- C8 counterexample: the malformed input `"ABC"` (three hex digits, not
six) is not rejected — `hexToRgb` silently returns a partial triple, two
parsed channels and a `NaN` (`none`) blue channel; no `InvalidColor` error
exists anywhere in the builder or the style resolver. -/
theorem hex_color_no_invalid_color_cex :
    hexToRgb "ABC" = ⟨some ((171 : ℚ) / 255), some ((12 : ℚ) / 255), none⟩ := by
  have h1 : jsParseIntHex (jsSubstring (removeFirstHash ("ABC" : String).data) 0 2)
      = some 171 := rfl
  have h2 : jsParseIntHex (jsSubstring (removeFirstHash ("ABC" : String).data) 2 4)
      = some 12 := rfl
  have h3 : jsParseIntHex (jsSubstring (removeFirstHash ("ABC" : String).data) 4 6)
      = none := rfl
  simp only [hexToRgb, h1, h2, h3]
  norm_num

/-- C8 (amended): style resolution never fails on any hex string —
`hexToRgb` is total and malformed input silently yields missing (`NaN`) or
partial channels — while for every input of exactly six hex digits it does
return a fully-populated normalized triple with each component in `[0, 1]`. -/
theorem hex_color_six_digit_valid (c0 c1 c2 c3 c4 c5 : Char)
    (h0 : isHexDigitB c0 = true) (h1 : isHexDigitB c1 = true)
    (h2 : isHexDigitB c2 = true) (h3 : isHexDigitB c3 = true)
    (h4 : isHexDigitB c4 = true) (h5 : isHexDigitB c5 = true) :
    ∃ r g bl : ℚ,
      hexToRgb (String.mk [c0, c1, c2, c3, c4, c5]) = ⟨some r, some g, some bl⟩ ∧
      0 ≤ r ∧ r ≤ 1 ∧ 0 ≤ g ∧ g ≤ 1 ∧ 0 ≤ bl ∧ bl ≤ 1 := by
  have hhash : isHexDigitB '#' = false := by decide
  have hnh : ∀ c ∈ [c0, c1, c2, c3, c4, c5], c ≠ '#' := by
    intro c hc
    simp only [List.mem_cons, List.not_mem_nil, or_false] at hc
    rcases hc with rfl | rfl | rfl | rfl | rfl | rfl
    · exact hexDigit_ne _ '#' h0 hhash
    · exact hexDigit_ne _ '#' h1 hhash
    · exact hexDigit_ne _ '#' h2 hhash
    · exact hexDigit_ne _ '#' h3 hhash
    · exact hexDigit_ne _ '#' h4 hhash
    · exact hexDigit_ne _ '#' h5 hhash
  have hclean : removeFirstHash (String.mk [c0, c1, c2, c3, c4, c5]).data
      = c0 :: c1 :: c2 :: c3 :: c4 :: c5 :: [] := by
    show removeFirstHash [c0, c1, c2, c3, c4, c5] = _
    exact removeFirstHash_no_hash _ hnh
  obtain ⟨hr0, hr1⟩ := qdiv255_in_unit _ (twoHex_le_255 c0 c1 h0 h1)
  obtain ⟨hg0, hg1⟩ := qdiv255_in_unit _ (twoHex_le_255 c2 c3 h2 h3)
  obtain ⟨hb0, hb1⟩ := qdiv255_in_unit _ (twoHex_le_255 c4 c5 h4 h5)
  exact ⟨_, _, _,
    hexToRgb_clean_eval _ c0 c1 c2 c3 c4 c5 [] hclean h0 h1 h2 h3 h4 h5,
    hr0, hr1, hg0, hg1, hb0, hb1⟩

/-- Witness for `hex_color_six_digit_valid` at the input `"FF0000"`. -/
theorem hex_color_six_digit_valid_witness :
    ∃ r g bl : ℚ,
      hexToRgb (String.mk ['F', 'F', '0', '0', '0', '0']) = ⟨some r, some g, some bl⟩ ∧
      0 ≤ r ∧ r ≤ 1 ∧ 0 ≤ g ∧ g ≤ 1 ∧ 0 ≤ bl ∧ bl ≤ 1 :=
  hex_color_six_digit_valid 'F' 'F' '0' '0' '0' '0'
    (by decide) (by decide) (by decide) (by decide) (by decide) (by decide)

/-! ## C6 / C7: phase batching -/

/-- The header/footer configuration pair of a builder. -/
def configsOf (b : GDocsBuilder) : Option HeaderFooterConfig × Option HeaderFooterConfig :=
  (b.headerConfig, b.footerConfig)

theorem configs_applyParagraphOptions (b : GDocsBuilder) (s e : Int)
    (o : Option ParagraphOptions) :
    configsOf (b.applyParagraphOptions s e o) = configsOf b := by
  cases o with
  | none => rfl
  | some o =>
    simp only [GDocsBuilder.applyParagraphOptions, GDocsBuilder.applyParagraphStyle,
      GDocsBuilder.push]
    repeat' split
    all_goals rfl

theorem configs_applyRunStyles (ps : List RunPos) :
    ∀ b : GDocsBuilder, configsOf (GDocsBuilder.applyRunStyles b ps) = configsOf b := by
  induction ps with
  | nil => intro b; rfl
  | cons pos rest ih =>
    intro b
    simp only [GDocsBuilder.applyRunStyles]
    rcases pos.style with _ | ⟨sty, fields⟩
    · exact ih b
    · dsimp only
      split
      · exact ih _
      · exact ih b

theorem configs_insertRunsAux (runs : List RunContent) :
    ∀ b : GDocsBuilder,
      configsOf (GDocsBuilder.insertRunsAux b runs).1 = configsOf b := by
  induction runs with
  | nil => intro b; rfl
  | cons run rest ih =>
    intro b
    simp only [GDocsBuilder.insertRunsAux]
    exact ih ((b.insertText run.text).1)

theorem configs_insertListItemsAux (items : List ListItemIn) :
    ∀ b : GDocsBuilder,
      configsOf (GDocsBuilder.insertListItemsAux b items).1 = configsOf b := by
  induction items with
  | nil => intro b; rfl
  | cons item rest ih =>
    intro b
    simp only [GDocsBuilder.insertListItemsAux]
    exact ih _

theorem configs_insertBulletList (b : GDocsBuilder) (items : List ListItemIn) :
    configsOf (b.insertBulletList items) = configsOf b := by
  simp only [GDocsBuilder.insertBulletList]
  rcases hp : GDocsBuilder.insertListItemsAux b items with ⟨b1, t⟩
  have := configs_insertListItemsAux items b
  rw [hp] at this
  simpa [GDocsBuilder.resetTextStyle, GDocsBuilder.push, configsOf] using this

theorem configs_insertNumberedList (b : GDocsBuilder) (items : List ListItemIn)
    (ls : Option NumberStyle) :
    configsOf (b.insertNumberedList items ls) = configsOf b := by
  simp only [GDocsBuilder.insertNumberedList]
  rcases hp : GDocsBuilder.insertListItemsAux b items with ⟨b1, t⟩
  have := configs_insertListItemsAux items b
  rw [hp] at this
  simpa [GDocsBuilder.resetTextStyle, GDocsBuilder.push, configsOf] using this

theorem configs_insertFormattedParagraph (b : GDocsBuilder) (runs : List RunContent)
    (o : Option ParagraphOptions) :
    configsOf (b.insertFormattedParagraph runs o) = configsOf b := by
  simp only [GDocsBuilder.insertFormattedParagraph]
  rw [configs_applyParagraphOptions, configs_applyRunStyles]
  have := configs_insertRunsAux runs b
  simpa [GDocsBuilder.resetTextStyle, GDocsBuilder.push, GDocsBuilder.insertText,
    configsOf] using this

theorem configs_insertImage (b : GDocsBuilder) (url : String)
    (o : Option ImageOptions) :
    configsOf (b.insertImage url o) = configsOf b := by
  simp only [GDocsBuilder.insertImage, GDocsBuilder.push, GDocsBuilder.insertText]
  rcases (o.getD {}).alignment with _ | a
  · rfl
  · dsimp only
    split
    · rfl
    · rfl

theorem configs_insertTable (b : GDocsBuilder) (headers : List String)
    (rows : List (List CellInput)) (options : TableOptions) :
    configsOf (b.insertTable headers rows options) = configsOf b := by
  rcases hp : cellOpsAux b.index headers.length options.headerBold
      (buildCellData (buildAllRows headers rows) headers.length) 0 with ⟨is, rs, fs⟩
  simp only [GDocsBuilder.insertTable, GDocsBuilder.push, GDocsBuilder.insertText, hp]
  rfl

theorem configs_applySection (b : GDocsBuilder) (s : Section) :
    configsOf (applySection b s) = configsOf b := by
  cases s with
  | heading level text => rfl
  | paragraph content alignment sb sa ls =>
    simp only [applySection]
    split
    · split
      · simp only [GDocsBuilder.insertParagraph]
        rw [configs_applyParagraphOptions]
        rfl
      · exact configs_insertFormattedParagraph _ _ _
    · exact configs_insertFormattedParagraph _ _ _
  | bullet_list items => exact configs_insertBulletList _ _
  | numbered_list items ls => exact configs_insertNumberedList _ _ _
  | table headers rows cw => exact configs_insertTable _ _ _ _
  | callout style content => rfl
  | code_block content => rfl
  | horizontal_rule => rfl
  | page_break => rfl
  | image url w h a =>
    simp only [applySection]
    rcases url with _ | u
    · rfl
    · exact configs_insertImage _ _ _

theorem configs_buildFromSections (b : GDocsBuilder) (title : String)
    (sections : List Section) :
    configsOf (buildFromSections b title sections) = configsOf b := by
  simp only [buildFromSections, GDocsBuilder.insertDocumentStyle]
  have hfold : ∀ (ss : List Section) (c : GDocsBuilder),
      configsOf (ss.foldl applySection c) = configsOf c := by
    intro ss
    induction ss with
    | nil => intro c; rfl
    | cons s rest ih =>
      intro c
      rw [List.foldl_cons, ih, configs_applySection]
  have h := hfold sections (b.insertHeading title 1)
  simpa [configsOf] using h

/-- Number of `updateTableCellStyle` requests in a request list. -/
def countCellStyle (rs : List GReq) : Nat :=
  rs.countP (fun r => r.isCellStyle)

theorem countCellStyle_append (xs ys : List GReq) :
    countCellStyle (xs ++ ys) = countCellStyle xs + countCellStyle ys := by
  simp [countCellStyle, List.countP_append]

theorem ccs_insertHeading (b : GDocsBuilder) (t : String) (l : Nat) :
    countCellStyle (b.insertHeading t l).requests = countCellStyle b.requests := by
  simp [GDocsBuilder.insertHeading, GDocsBuilder.applyParagraphStyle,
    GDocsBuilder.applyTextStyle, GDocsBuilder.resetTextStyle, GDocsBuilder.push,
    GDocsBuilder.insertText, countCellStyle, List.countP_append, List.countP_cons,
    GReq.isCellStyle]

theorem ccs_applyParagraphOptions (b : GDocsBuilder) (s e : Int)
    (o : Option ParagraphOptions) :
    countCellStyle (b.applyParagraphOptions s e o).requests
      = countCellStyle b.requests := by
  cases o with
  | none => rfl
  | some o =>
    simp only [GDocsBuilder.applyParagraphOptions, GDocsBuilder.applyParagraphStyle,
      GDocsBuilder.push]
    repeat' split
    all_goals
      simp [countCellStyle, List.countP_append, List.countP_cons, GReq.isCellStyle]

theorem ccs_insertParagraph (b : GDocsBuilder) (t : String)
    (o : Option ParagraphOptions) :
    countCellStyle (b.insertParagraph t o).requests = countCellStyle b.requests := by
  simp only [GDocsBuilder.insertParagraph]
  rw [ccs_applyParagraphOptions]
  simp [GDocsBuilder.resetTextStyle, GDocsBuilder.push, GDocsBuilder.insertText,
    countCellStyle, List.countP_append, List.countP_cons, GReq.isCellStyle]

theorem ccs_applyRunStyles (ps : List RunPos) :
    ∀ b : GDocsBuilder,
      countCellStyle (GDocsBuilder.applyRunStyles b ps).requests
        = countCellStyle b.requests := by
  induction ps with
  | nil => intro b; rfl
  | cons pos rest ih =>
    intro b
    simp only [GDocsBuilder.applyRunStyles]
    rcases pos.style with _ | ⟨sty, fields⟩
    · exact ih b
    · dsimp only
      split
      · rw [ih]
        simp [GDocsBuilder.applyTextStyle, GDocsBuilder.push, countCellStyle,
          List.countP_append, List.countP_cons, GReq.isCellStyle]
      · exact ih b

theorem ccs_insertRunsAux (runs : List RunContent) :
    ∀ b : GDocsBuilder,
      countCellStyle (GDocsBuilder.insertRunsAux b runs).1.requests
        = countCellStyle b.requests := by
  induction runs with
  | nil => intro b; rfl
  | cons run rest ih =>
    intro b
    simp only [GDocsBuilder.insertRunsAux]
    rw [ih ((b.insertText run.text).1)]
    simp [GDocsBuilder.insertText, countCellStyle, List.countP_append,
      List.countP_cons, GReq.isCellStyle]

theorem ccs_insertFormattedParagraph (b : GDocsBuilder) (runs : List RunContent)
    (o : Option ParagraphOptions) :
    countCellStyle (b.insertFormattedParagraph runs o).requests
      = countCellStyle b.requests := by
  simp only [GDocsBuilder.insertFormattedParagraph]
  rw [ccs_applyParagraphOptions, ccs_applyRunStyles]
  simp only [GDocsBuilder.resetTextStyle, GDocsBuilder.push, GDocsBuilder.insertText]
  rw [countCellStyle_append, countCellStyle_append]
  rw [ccs_insertRunsAux runs b]
  simp [countCellStyle, List.countP_cons, GReq.isCellStyle]

theorem ccs_insertListItemsAux (items : List ListItemIn) :
    ∀ b : GDocsBuilder,
      countCellStyle (GDocsBuilder.insertListItemsAux b items).1.requests
        = countCellStyle b.requests := by
  induction items with
  | nil => intro b; rfl
  | cons item rest ih =>
    intro b
    simp only [GDocsBuilder.insertListItemsAux]
    rw [ih]
    simp [GDocsBuilder.insertText, countCellStyle, List.countP_append,
      List.countP_cons, GReq.isCellStyle]

theorem ccs_insertBulletList (b : GDocsBuilder) (items : List ListItemIn) :
    countCellStyle (b.insertBulletList items).requests
      = countCellStyle b.requests := by
  simp only [GDocsBuilder.insertBulletList]
  rcases hp : GDocsBuilder.insertListItemsAux b items with ⟨b1, t⟩
  have h := ccs_insertListItemsAux items b
  rw [hp] at h
  dsimp only at h ⊢
  simp only [GDocsBuilder.resetTextStyle, GDocsBuilder.push]
  rw [countCellStyle_append, countCellStyle_append, h]
  simp [countCellStyle, List.countP_cons, GReq.isCellStyle]

theorem ccs_insertNumberedList (b : GDocsBuilder) (items : List ListItemIn)
    (ls : Option NumberStyle) :
    countCellStyle (b.insertNumberedList items ls).requests
      = countCellStyle b.requests := by
  simp only [GDocsBuilder.insertNumberedList]
  rcases hp : GDocsBuilder.insertListItemsAux b items with ⟨b1, t⟩
  have h := ccs_insertListItemsAux items b
  rw [hp] at h
  dsimp only at h ⊢
  simp only [GDocsBuilder.resetTextStyle, GDocsBuilder.push]
  rw [countCellStyle_append, countCellStyle_append, h]
  simp [countCellStyle, List.countP_cons, GReq.isCellStyle]

theorem ccs_insertHorizontalRule (b : GDocsBuilder) :
    countCellStyle (b.insertHorizontalRule).requests = countCellStyle b.requests := by
  simp [GDocsBuilder.insertHorizontalRule, GDocsBuilder.applyParagraphStyle,
    GDocsBuilder.push, GDocsBuilder.insertText, countCellStyle,
    List.countP_append, List.countP_cons, GReq.isCellStyle]

theorem ccs_insertPageBreak (b : GDocsBuilder) :
    countCellStyle (b.insertPageBreak).requests = countCellStyle b.requests := by
  simp [GDocsBuilder.insertPageBreak, GDocsBuilder.push, countCellStyle,
    List.countP_append, List.countP_cons, GReq.isCellStyle]

theorem ccs_insertImage (b : GDocsBuilder) (url : String) (o : Option ImageOptions) :
    countCellStyle (b.insertImage url o).requests = countCellStyle b.requests := by
  simp only [GDocsBuilder.insertImage, GDocsBuilder.push, GDocsBuilder.insertText]
  rcases (o.getD {}).alignment with _ | a
  · simp [countCellStyle, List.countP_append, List.countP_cons, GReq.isCellStyle]
  · dsimp only
    split
    · simp [countCellStyle, List.countP_append, List.countP_cons, GReq.isCellStyle]
    · simp [countCellStyle, List.countP_append, List.countP_cons, GReq.isCellStyle]

/-- Sections that render through a table structure (and therefore emit
`updateTableCellStyle` requests). -/
def sectionIsTableLike : Section → Bool
  | .table _ _ _ => true
  | .callout _ _ => true
  | .code_block _ => true
  | _ => false

theorem ccs_applySection (b : GDocsBuilder) (s : Section)
    (h : sectionIsTableLike s = false) :
    countCellStyle (applySection b s).requests = countCellStyle b.requests := by
  cases s with
  | heading level text => exact ccs_insertHeading b text level
  | paragraph content alignment sb sa ls =>
    simp only [applySection]
    split
    · split
      · exact ccs_insertParagraph _ _ _
      · exact ccs_insertFormattedParagraph _ _ _
    · exact ccs_insertFormattedParagraph _ _ _
  | bullet_list items => exact ccs_insertBulletList _ _
  | numbered_list items ls => exact ccs_insertNumberedList _ _ _
  | table headers rows cw => exact absurd h (by simp [sectionIsTableLike])
  | callout style content => exact absurd h (by simp [sectionIsTableLike])
  | code_block content => exact absurd h (by simp [sectionIsTableLike])
  | horizontal_rule => exact ccs_insertHorizontalRule _
  | page_break => exact ccs_insertPageBreak _
  | image url w h a =>
    simp only [applySection]
    rcases url with _ | u
    · rfl
    · exact ccs_insertImage _ _ _

theorem ccs_foldl_applySection (sections : List Section)
    (h : ∀ s ∈ sections, sectionIsTableLike s = false) :
    ∀ b : GDocsBuilder,
      countCellStyle (sections.foldl applySection b).requests
        = countCellStyle b.requests := by
  induction sections with
  | nil => intro b; rfl
  | cons s rest ih =>
    intro b
    rw [List.foldl_cons,
      ih (fun x hx => h x (List.mem_cons_of_mem s hx)) (applySection b s),
      ccs_applySection b s (h s (List.mem_cons_self s rest))]

/-- The main request list of `buildFromSections` always starts with the
unshifted document-style request. -/
theorem buildFromSections_requests (b : GDocsBuilder) (title : String)
    (sections : List Section) :
    (buildFromSections b title sections).requests
      = GReq.updateDocumentStyleReq ::
          (sections.foldl applySection (b.insertHeading title 1)).requests := rfl

theorem ccs_buildFromSections (b : GDocsBuilder) (title : String)
    (sections : List Section) (h : ∀ s ∈ sections, sectionIsTableLike s = false) :
    countCellStyle (buildFromSections b title sections).requests
      = countCellStyle b.requests := by
  rw [buildFromSections_requests]
  have : countCellStyle (GReq.updateDocumentStyleReq ::
      (sections.foldl applySection (b.insertHeading title 1)).requests)
    = countCellStyle ((sections.foldl applySection (b.insertHeading title 1)).requests) := by
    simp [countCellStyle, List.countP_cons, GReq.isCellStyle]
  rw [this, ccs_foldl_applySection sections h, ccs_insertHeading]

theorem str_append_ne_empty (t u : String) (h : t ≠ "") : t ++ u ≠ "" := by
  intro he
  apply h
  have hlen := congrArg String.length he
  rw [strLength_append] at hlen
  have ht : t.length = 0 := by
    have : ("" : String).length = 0 := rfl
    omega
  rcases t with ⟨td⟩
  have : td = [] := List.length_eq_zero.mp ht
  rw [this]

theorem footerTextOf_ne_empty (cfg : HeaderFooterConfig) (ft : String)
    (h1 : cfg.text = some ft) (h2 : ft ≠ "") : footerTextOf cfg ≠ "" := by
  unfold footerTextOf
  rw [h1]
  dsimp only [Option.getD]
  split
  · exact str_append_ne_empty ft _ h2
  · exact h2

theorem segmentReqsFor_ne_nil (segId txt : String) (alignment : Option HAlign)
    (h : txt ≠ "") : segmentReqsFor segId txt alignment ≠ [] := by
  simp only [segmentReqsFor, if_pos h]
  cases alignment <;> simp

/-- Shape of the submitted batches when a phase-1 batch exists, the main
requests contain no cell-style request (but are non-empty), and phase 2 is
non-empty: exactly three batches. -/
theorem submittedBatches_three (pd : PhaseRequests) (rs : List Reply)
    (h1 : pd.phase1Requests ≠ [])
    (hcs : countCellStyle pd.mainRequests = 0)
    (hne : pd.mainRequests.filter (fun r => !r.isCellStyle) ≠ [])
    (hp2 : buildPhase2Requests pd rs ≠ []) :
    (submittedBatches pd (some rs)).length = 3 := by
  have hcsf : pd.mainRequests.filter (fun r => r.isCellStyle) = [] := by
    apply List.length_eq_zero.mp
    rw [← List.countP_eq_length_filter]
    exact hcs
  have hl1 : 0 < pd.phase1Requests.length := List.length_pos.mpr h1
  have hlm : 0 < pd.mainRequests.length := by
    rcases hm : pd.mainRequests with _ | ⟨r, rest⟩
    · rw [hm] at hne
      simp at hne
    · simp
  have hls : 0 < (pd.mainRequests.filter (fun r => !r.isCellStyle)).length :=
    List.length_pos.mpr hne
  have hlp : 0 < (buildPhase2Requests pd rs).length := List.length_pos.mpr hp2
  simp [submittedBatches, hcsf, hl1, hlm, hls, hlp]

/-- Shape of the submitted batches when no phase-1 batch exists and the main
requests contain no cell-style request (but are non-empty): one batch. -/
theorem submittedBatches_one (pd : PhaseRequests) (replies : Option (List Reply))
    (h1 : pd.phase1Requests = [])
    (hcs : countCellStyle pd.mainRequests = 0)
    (hne : pd.mainRequests.filter (fun r => !r.isCellStyle) ≠ []) :
    (submittedBatches pd replies).length = 1 := by
  have hcsf : pd.mainRequests.filter (fun r => r.isCellStyle) = [] := by
    apply List.length_eq_zero.mp
    rw [← List.countP_eq_length_filter]
    exact hcs
  have hlm : 0 < pd.mainRequests.length := by
    rcases hm : pd.mainRequests with _ | ⟨r, rest⟩
    · rw [hm] at hne
      simp at hne
    · simp
  have hls : 0 < (pd.mainRequests.filter (fun r => !r.isCellStyle)).length :=
    List.length_pos.mpr hne
  simp [submittedBatches, h1, hcsf, hlm, hls]

/-- C6 (amended): the number of submitted batches is determined by the
document's configuration, but a footer-only document (no header, no
table/callout/code-block sections, non-empty footer text, reply carrying the
footer id) yields exactly THREE batches — creation, then the structural main
batch (never empty: the title heading and document style are always
emitted), then populate-footer; a document with neither header, footer nor
table-like sections yields exactly one batch. -/
theorem phase_batching_counts :
    (∀ (title : String) (sections : List Section) (cfg : HeaderFooterConfig)
        (ft fid : String) (rs : List Reply),
      (∀ s ∈ sections, sectionIsTableLike s = false) →
      cfg.text = some ft → ft ≠ "" →
      footerIdOf (rs.get? 0) = some fid →
      (createGoogleDocBatches title sections none (some cfg) (some rs)).length = 3) ∧
    (∀ (title : String) (sections : List Section) (replies : Option (List Reply)),
      (∀ s ∈ sections, sectionIsTableLike s = false) →
      (createGoogleDocBatches title sections none none replies).length = 1) := by
  constructor
  · intro title sections cfg ft fid rs hsec htext hft hfid
    show (submittedBatches
        ((builderForDocument title sections none (some cfg)).getPhaseRequests)
        (some rs)).length = 3
    have hbld : builderForDocument title sections none (some cfg)
        = buildFromSections (GDocsBuilder.new.setFooter cfg) title sections := rfl
    have hcfgs : configsOf (builderForDocument title sections none (some cfg))
        = (none, some cfg) := by
      rw [hbld, configs_buildFromSections]
      rfl
    have hh : (builderForDocument title sections none (some cfg)).headerConfig
        = none := congrArg Prod.fst hcfgs
    have hf : (builderForDocument title sections none (some cfg)).footerConfig
        = some cfg := congrArg Prod.snd hcfgs
    have hpd : (builderForDocument title sections none (some cfg)).getPhaseRequests
        = { mainRequests := (builderForDocument title sections none (some cfg)).requests
            phase1Requests := [GReq.createFooterReq]
            hasHeader := false, hasFooter := true
            headerConfig := none, footerConfig := some cfg } := by
      simp [GDocsBuilder.getPhaseRequests, hh, hf]
    have hcs : countCellStyle (builderForDocument title sections none (some cfg)).requests
        = 0 := by
      rw [hbld, ccs_buildFromSections _ _ _ hsec]
      rfl
    have hne : (builderForDocument title sections none (some cfg)).requests.filter
        (fun r => !r.isCellStyle) ≠ [] := by
      rw [hbld, buildFromSections_requests]
      simp [List.filter, GReq.isCellStyle]
    have hp2 : buildPhase2Requests
        ((builderForDocument title sections none (some cfg)).getPhaseRequests) rs ≠ [] := by
      rw [hpd]
      simp only [buildPhase2Requests, phase2HeaderReqs, phase2FooterReqs]
      simp only [Bool.false_eq_true, if_false, if_true]
      rw [hfid]
      simp only [List.nil_append]
      exact segmentReqsFor_ne_nil fid (footerTextOf cfg) cfg.alignment
        (footerTextOf_ne_empty cfg ft htext hft)
    apply submittedBatches_three
    · rw [hpd]
      simp
    · rw [hpd]
      exact hcs
    · rw [hpd]
      exact hne
    · exact hp2
  · intro title sections replies hsec
    show (submittedBatches
        ((builderForDocument title sections none none).getPhaseRequests)
        replies).length = 1
    have hbld : builderForDocument title sections none none
        = buildFromSections GDocsBuilder.new title sections := rfl
    have hcfgs : configsOf (builderForDocument title sections none none)
        = (none, none) := by
      rw [hbld, configs_buildFromSections]
      rfl
    have hh : (builderForDocument title sections none none).headerConfig = none :=
      congrArg Prod.fst hcfgs
    have hf : (builderForDocument title sections none none).footerConfig = none :=
      congrArg Prod.snd hcfgs
    have hpd : (builderForDocument title sections none none).getPhaseRequests
        = { mainRequests := (builderForDocument title sections none none).requests
            phase1Requests := []
            hasHeader := false, hasFooter := false
            headerConfig := none, footerConfig := none } := by
      simp [GDocsBuilder.getPhaseRequests, hh, hf]
    have hcs : countCellStyle (builderForDocument title sections none none).requests
        = 0 := by
      rw [hbld, ccs_buildFromSections _ _ _ hsec]
      rfl
    have hne : (builderForDocument title sections none none).requests.filter
        (fun r => !r.isCellStyle) ≠ [] := by
      rw [hbld, buildFromSections_requests]
      simp [List.filter, GReq.isCellStyle]
    apply submittedBatches_one
    · rw [hpd]
    · rw [hpd]
      exact hcs
    · rw [hpd]
      exact hne

/-- Witness for `phase_batching_counts`: a concrete footer-only document
yields three batches; a concrete bare document yields one. -/
theorem phase_batching_counts_witness :
    ((createGoogleDocBatches "W" [] none
        (some { text := some "foot" })
        (some [Reply.createFooterR (some "kix.w")])).length = 3) ∧
    ((createGoogleDocBatches "W" [] none none none).length = 1) :=
  ⟨phase_batching_counts.1 "W" [] { text := some "foot" } "foot" "kix.w"
      [Reply.createFooterR (some "kix.w")]
      (by simp) rfl (by decide) rfl,
    phase_batching_counts.2 "W" [] none (by simp)⟩

/-- Counterexample to C6 as stated: a document requesting only a footer (no
header, no tables) and whose phase-1 reply does carry the footer id submits
THREE batches, not two — the structural main batch (title heading plus
document style) always sits between the creation batch and the
populate-footer batch. -/
theorem phase_batching_footer_only_cex :
    ((createGoogleDocBatches "T" [] none
        (some { text := some "f" })
        (some [Reply.createFooterR (some "kix.id")])).length = 3) ∧
    ¬ ((createGoogleDocBatches "T" [] none
        (some { text := some "f" })
        (some [Reply.createFooterR (some "kix.id")])).length = 2) := by
  have h3 : (createGoogleDocBatches "T" [] none
      (some { text := some "f" })
      (some [Reply.createFooterR (some "kix.id")])).length = 3 := rfl
  refine ⟨h3, ?_⟩
  rw [h3]
  decide

/-- C7 (amended): when a requested header/footer creation yields no
identifier in the phase-1 reply, the handler raises no error — the populate
requests for that segment are simply not generated, and when no segment has
an identifier the whole populate batch is silently skipped (the batch
sequence is the same as if no reply had been returned at all). -/
theorem missing_segment_id_skipped (pd : PhaseRequests) (rs : List Reply)
    (hh : pd.hasHeader = true → headerIdOf (rs.get? 0) = none)
    (hf : pd.hasFooter = true →
      footerIdOf (rs.get? (if pd.hasHeader then 1 else 0)) = none) :
    buildPhase2Requests pd rs = [] ∧
    submittedBatches pd (some rs) = submittedBatches pd none := by
  have hH : phase2HeaderReqs pd rs = [] := by
    unfold phase2HeaderReqs
    cases hb : pd.hasHeader with
    | false => simp
    | true =>
      simp only [if_true]
      cases hc : pd.headerConfig with
      | none => rfl
      | some cfg =>
        rw [hh hb]
  have hF : phase2FooterReqs pd rs = [] := by
    unfold phase2FooterReqs
    cases hb : pd.hasFooter with
    | false => simp
    | true =>
      simp only [if_true]
      cases hc : pd.footerConfig with
      | none => rfl
      | some cfg =>
        rw [hf hb]
  have hp2 : buildPhase2Requests pd rs = [] := by
    rw [buildPhase2Requests, hH, hF]
    rfl
  refine ⟨hp2, ?_⟩
  simp [submittedBatches, hp2]

/-- Witness for `missing_segment_id_skipped`: footer requested, reply with
no identifiers — nothing is generated and the batch sequence is unchanged. -/
theorem missing_segment_id_skipped_witness :
    buildPhase2Requests
      { mainRequests := [GReq.insertTextReq 1 "x"]
        phase1Requests := [GReq.createFooterReq]
        hasHeader := false, hasFooter := true
        headerConfig := none, footerConfig := some { text := some "f" } }
      [Reply.emptyR] = [] ∧
    submittedBatches
      { mainRequests := [GReq.insertTextReq 1 "x"]
        phase1Requests := [GReq.createFooterReq]
        hasHeader := false, hasFooter := true
        headerConfig := none, footerConfig := some { text := some "f" } }
      (some [Reply.emptyR])
      = submittedBatches
        { mainRequests := [GReq.insertTextReq 1 "x"]
          phase1Requests := [GReq.createFooterReq]
          hasHeader := false, hasFooter := true
          headerConfig := none, footerConfig := some { text := some "f" } }
        none :=
  missing_segment_id_skipped _ [Reply.emptyR]
    (fun h => by simp at h) (fun _ => rfl)

/-- Counterexample to C7 as stated: a whole document run that requests a
footer and whose phase-1 reply carries no footer id completes with two
batches (creation, structural) — no `MissingSegmentId` error exists and no
error is raised; the populate batch is silently skipped. -/
theorem missing_segment_id_cex :
    ((createGoogleDocBatches "T" [] none (some { text := some "f" })
        (some [Reply.emptyR])).length = 2) ∧
    (buildPhase2Requests
        ((builderForDocument "T" [] none
            (some { text := some "f" })).getPhaseRequests)
        [Reply.emptyR] = []) := by
  constructor
  · rfl
  · rfl
